import Mathlib

/-!
# NERgpt document-analysis handler: model and properties

Shallow embedding of `main.go` / `types.go`: the request handler `HandleRequest`, the
dual-OCR analysis `doDocAnalysis`, the two confidence normalizers, the text-detection
transcript builder and the prompt builder / LLM client `askGPTForPIIAnalysis`.

Conventions of the embedding
* Go `float64` values are `F64`: a finite value (a rational), a signed infinity or NaN.
  Every arithmetic operation on finite values rounds its exact result with the rounding
  `R : Rounding` of the number format, which the definitions take as an argument:
  `Rounding.binary64` is round-to-nearest, ties-to-even, of binary64, as Go computes;
  `Rounding.exact` is exact arithmetic.  Overflow of finite results and the sign of zero
  are not tracked.
* Network exchanges and the `encoding/json` decoders are fields of `Services`; every
  exchange is recorded in a list of `Call`s returned next to the result.
* A Go `error` is its message; a run-time panic is the `Res.panic` outcome.
* Logging, `print` and `time.Sleep` have no effect on results and are left out.
-/

namespace NERgpt

/-! ## float64 -/

/-- A Go `float64` value. Finite values are carried as rationals. -/
inductive F64 where
  | fin (q : ℚ)
  | inf (negative : Bool)
  | nan
  deriving DecidableEq

/-- Rounding of the float64 format: `rnd x` is the representable value that stands for the
exact result `x` of an operation. It preserves order, and the naturals up to `2 ^ 53` are
representable, hence left unchanged. Round-to-nearest of binary64 is such a rounding
(`Rounding.binary64`, the arithmetic of Go), and so is exact arithmetic (`Rounding.exact`). -/
structure Rounding where
  rnd : ℚ → ℚ
  mono : Monotone rnd
  nat_exact : ∀ k : ℕ, k ≤ 2 ^ 53 → rnd (k : ℚ) = (k : ℚ)

/-- Exact arithmetic: no operation rounds. -/
def Rounding.exact : Rounding where
  rnd := id
  mono := monotone_id
  nat_exact := fun _ _ => rfl

/-- Nearest integer to a rational, halfway cases to the even neighbour. -/
def roundHalfEven (t : ℚ) : ℤ :=
  if t - ⌊t⌋ < 1 / 2 then ⌊t⌋
  else if 1 / 2 < t - ⌊t⌋ then ⌊t⌋ + 1
  else if ⌊t⌋ % 2 = 0 then ⌊t⌋ else ⌊t⌋ + 1

/-- Exponent of the unit in the last place of binary64 at `x > 0`: 52 below the binary
exponent `⌊log₂ x⌋` (53-bit significand), and never below -1074 (subnormal range). -/
def ulpExponent (x : ℚ) : ℤ := max (Int.log 2 x - 52) (-1074)

/-- Round-to-nearest, ties-to-even, of binary64 on a non-negative rational: the nearest
multiple of the unit in the last place. There is no overflow threshold. -/
def roundNearestEvenNonneg (x : ℚ) : ℚ :=
  if x = 0 then 0 else (roundHalfEven (x / 2 ^ ulpExponent x) : ℚ) * 2 ^ ulpExponent x

/-- Round-to-nearest, ties-to-even, of binary64 (the rounding of every Go float64
operation); it is symmetric in the sign. -/
def roundNearestEven (x : ℚ) : ℚ :=
  if 0 ≤ x then roundNearestEvenNonneg x else -roundNearestEvenNonneg (-x)

/-- The rounding of Go float64 arithmetic: binary64 round-to-nearest, ties-to-even. -/
def Rounding.binary64 : Rounding where
  rnd := roundNearestEven
  mono := by
    have pow_pos : ∀ e : ℤ, (0 : ℚ) < 2 ^ e := fun e => zpow_pos (by norm_num) e
    have pow_mul : ∀ (k : ℕ) (e : ℤ),
        (((2 : ℤ) ^ k : ℤ) : ℚ) * 2 ^ e = 2 ^ ((k : ℤ) + e) := by
      intro k e
      rw [Int.cast_pow, Int.cast_ofNat, ← zpow_natCast, ← zpow_add₀ (by norm_num)]
    have rhe_mem : ∀ t : ℚ, roundHalfEven t = ⌊t⌋ ∨ roundHalfEven t = ⌊t⌋ + 1 := by
      intro t
      unfold roundHalfEven
      split_ifs <;> simp
    have rhe_int : ∀ n : ℤ, roundHalfEven (n : ℚ) = n := by
      intro n
      unfold roundHalfEven
      simp
    have rhe_mono : ∀ t t' : ℚ, t ≤ t' → roundHalfEven t ≤ roundHalfEven t' := by
      intro t t' h
      have hf : ⌊t⌋ ≤ ⌊t'⌋ := Int.floor_mono h
      rcases lt_or_eq_of_le hf with hlt | heq
      · rcases rhe_mem t with h1 | h1 <;> rcases rhe_mem t' with h2 | h2 <;> omega
      · unfold roundHalfEven
        rw [← heq]
        split_ifs <;> first | omega | (exfalso; linarith)
    have cast_mono : ∀ t t' : ℚ, t ≤ t' →
        (roundHalfEven t : ℚ) ≤ (roundHalfEven t' : ℚ) := by
      intro t t' h
      exact_mod_cast rhe_mono t t' h
    have nonneg : ∀ x : ℚ, 0 ≤ x → 0 ≤ roundNearestEvenNonneg x := by
      intro x hx
      unfold roundNearestEvenNonneg
      split_ifs with h0
      · exact le_rfl
      · have h1 : 0 ≤ x / 2 ^ ulpExponent x := div_nonneg hx (le_of_lt (pow_pos _))
        have h2 := cast_mono 0 _ h1
        rw [show ((0 : ℚ)) = ((0 : ℤ) : ℚ) by simp, rhe_int] at h2
        exact mul_nonneg (by simpa using h2) (le_of_lt (pow_pos _))
    have mono_nonneg : ∀ x y : ℚ, 0 ≤ x → x ≤ y →
        roundNearestEvenNonneg x ≤ roundNearestEvenNonneg y := by
      intro x y hx h
      rcases eq_or_lt_of_le hx with h0 | hpos
      · rw [← h0, show roundNearestEvenNonneg 0 = 0 by simp [roundNearestEvenNonneg]]
        exact nonneg y (le_trans hx h)
      · have hypos : 0 < y := lt_of_lt_of_le hpos h
        have he : ulpExponent x ≤ ulpExponent y :=
          max_le_max (by have := Int.log_mono_right (b := 2) hpos h; omega) le_rfl
        unfold roundNearestEvenNonneg
        rw [if_neg (ne_of_gt hpos), if_neg (ne_of_gt hypos)]
        rcases lt_or_eq_of_le he with hlt | heq
        · -- the power of two `2 ^ ⌊log₂ y⌋` lies between the two rounded values
          have hey : ulpExponent y = Int.log 2 y - 52 := by
            unfold ulpExponent at hlt ⊢
            have h1 : (-1074 : ℤ) ≤ max (Int.log 2 x - 52) (-1074) := le_max_right _ _
            rcases max_cases (Int.log 2 y - 52) (-1074) with ⟨h2, _⟩ | ⟨h2, _⟩
            · exact h2
            · rw [h2] at hlt; omega
          have hlog : Int.log 2 x < Int.log 2 y := by
            have h1 : Int.log 2 x - 52 ≤ ulpExponent x := le_max_left _ _
            omega
          have hpy : (2 : ℚ) ^ Int.log 2 y ≤ y := by
            simpa using Int.zpow_log_le_self (b := 2) (by norm_num) hypos
          have hxp : x < (2 : ℚ) ^ Int.log 2 y := by
            have h1 := Int.lt_zpow_succ_log_self (b := 2) (by norm_num) x
            have h2 : ((2 : ℕ) : ℚ) ^ (Int.log 2 x + 1) ≤ ((2 : ℕ) : ℚ) ^ Int.log 2 y :=
              zpow_le_zpow_right₀ (by norm_num) (by omega)
            simpa using lt_of_lt_of_le h1 h2
          have hR : (2 : ℚ) ^ Int.log 2 y
              ≤ (roundHalfEven (y / 2 ^ ulpExponent y) : ℚ) * 2 ^ ulpExponent y := by
            have hp : (((2 : ℤ) ^ (52 : ℕ) : ℤ) : ℚ) * 2 ^ ulpExponent y = 2 ^ Int.log 2 y := by
              rw [hey, pow_mul]
              congr 1
              omega
            have h1 : (((2 : ℤ) ^ (52 : ℕ) : ℤ) : ℚ) ≤ y / 2 ^ ulpExponent y := by
              rw [le_div_iff₀ (pow_pos _), hp]
              exact hpy
            have h2 := cast_mono _ _ h1
            rw [rhe_int] at h2
            have h3 := mul_le_mul_of_nonneg_right h2 (le_of_lt (pow_pos (ulpExponent y)))
            rwa [hp] at h3
          have hL : (roundHalfEven (x / 2 ^ ulpExponent x) : ℚ) * 2 ^ ulpExponent x
              ≤ (2 : ℚ) ^ Int.log 2 y := by
            have hk : 0 ≤ Int.log 2 y - ulpExponent x := by omega
            obtain ⟨k, hk'⟩ := Int.eq_ofNat_of_zero_le hk
            have hp : (2 : ℚ) ^ Int.log 2 y
                = (((2 : ℤ) ^ k : ℤ) : ℚ) * 2 ^ ulpExponent x := by
              rw [pow_mul]
              congr 1
              omega
            have h1 : x / 2 ^ ulpExponent x ≤ (((2 : ℤ) ^ k : ℤ) : ℚ) := by
              rw [div_le_iff₀ (pow_pos _), ← hp]
              exact le_of_lt hxp
            have h2 := cast_mono _ _ h1
            rw [rhe_int] at h2
            rw [hp]
            exact mul_le_mul_of_nonneg_right h2 (le_of_lt (pow_pos _))
          exact le_trans hL hR
        · rw [heq]
          exact mul_le_mul_of_nonneg_right
            (cast_mono _ _ (div_le_div_of_nonneg_right h (le_of_lt (pow_pos _))))
            (le_of_lt (pow_pos _))
    intro x y h
    show roundNearestEven x ≤ roundNearestEven y
    unfold roundNearestEven
    by_cases hx : 0 ≤ x
    · rw [if_pos hx, if_pos (le_trans hx h)]
      exact mono_nonneg x y hx h
    · rw [if_neg hx]
      have hx' : 0 ≤ -x := by linarith [not_le.mp hx]
      by_cases hy : 0 ≤ y
      · rw [if_pos hy]
        have := nonneg (-x) hx'
        have := nonneg y hy
        linarith
      · rw [if_neg hy]
        have hy' : 0 ≤ -y := by linarith [not_le.mp hy]
        have := mono_nonneg (-y) (-x) hy' (by linarith)
        linarith
  nat_exact := by
    intro k hk
    have pow_pos : ∀ e : ℤ, (0 : ℚ) < 2 ^ e := fun e => zpow_pos (by norm_num) e
    have rhe_int : ∀ n : ℤ, roundHalfEven (n : ℚ) = n := by
      intro n
      unfold roundHalfEven
      simp
    unfold roundNearestEven
    rw [if_pos (Nat.cast_nonneg k)]
    unfold roundNearestEvenNonneg
    split_ifs with h0
    · exact h0.symm
    · have hkpos : 0 < k := Nat.pos_of_ne_zero (by intro e; apply h0; simp [e])
      have hl53 : Nat.log 2 k ≤ 53 := by
        have := Nat.log_mono_right (b := 2) hk
        rwa [Nat.log_pow (by norm_num)] at this
      have he : ulpExponent (k : ℚ) = (Nat.log 2 k : ℤ) - 52 := by
        unfold ulpExponent
        rw [Int.log_natCast 2 k]
        exact max_eq_left (by omega)
      rw [he]
      have hint : ∃ m : ℤ, (k : ℚ) / 2 ^ ((Nat.log 2 k : ℤ) - 52) = (m : ℚ) := by
        rcases Nat.lt_or_ge (Nat.log 2 k) 53 with hlt | hge
        · refine ⟨(k : ℤ) * 2 ^ (52 - Nat.log 2 k), ?_⟩
          rw [div_eq_iff (ne_of_gt (pow_pos _)), Int.cast_mul, mul_assoc, Int.cast_pow,
            Int.cast_ofNat, ← zpow_natCast, ← zpow_add₀ (by norm_num)]
          have : ((52 - Nat.log 2 k : ℕ) : ℤ) + ((Nat.log 2 k : ℤ) - 52) = 0 := by omega
          rw [this]
          simp
        · have h53 : Nat.log 2 k = 53 := le_antisymm hl53 hge
          have hk53 : k = 2 ^ 53 := by
            apply le_antisymm hk
            have := Nat.pow_log_le_self 2 (ne_of_gt hkpos)
            rwa [h53] at this
          refine ⟨2 ^ 52, ?_⟩
          rw [h53, hk53]
          norm_num
      obtain ⟨m, hm⟩ := hint
      rw [hm, rhe_int, ← hm]
      exact div_mul_cancel₀ _ (ne_of_gt (pow_pos _))

namespace F64

/-- Go `x + y` on float64. -/
def add (R : Rounding) : F64 → F64 → F64
  | fin a, fin b => fin (R.rnd (a + b))
  | nan, _ => nan
  | _, nan => nan
  | inf s, inf t => if s = t then inf s else nan
  | inf s, fin _ => inf s
  | fin _, inf t => inf t

/-- Go `x / y` on float64, as compiled by gc (IEEE 754): a finite non-zero value over zero
is an infinity, `0 / 0` is NaN, and no run-time panic occurs. -/
def div (R : Rounding) : F64 → F64 → F64
  | fin a, fin b =>
      if b = 0 then (if a = 0 then nan else inf (decide (a < 0))) else fin (R.rnd (a / b))
  | nan, _ => nan
  | _, nan => nan
  | inf _, inf _ => nan
  | inf s, fin b => inf (xor s (decide (b < 0)))
  | fin _, inf _ => fin 0

/-- Go `x * y` on float64. -/
def mul (R : Rounding) : F64 → F64 → F64
  | fin a, fin b => fin (R.rnd (a * b))
  | nan, _ => nan
  | _, nan => nan
  | inf s, inf t => inf (xor s t)
  | inf s, fin b => if b = 0 then nan else inf (xor s (decide (b < 0)))
  | fin a, inf t => if a = 0 then nan else inf (xor (decide (a < 0)) t)

/-- Go `x > y` on float64: false as soon as one side is NaN. -/
def gt : F64 → F64 → Bool
  | fin a, fin b => decide (b < a)
  | nan, _ => false
  | _, nan => false
  | inf s, inf t => !s && t
  | inf s, fin _ => !s
  | fin _, inf t => t

/-- Go `x <= y` on float64: false as soon as one side is NaN. -/
def le : F64 → F64 → Bool
  | fin a, fin b => decide (a ≤ b)
  | nan, _ => false
  | _, nan => false
  | inf s, inf t => s || !t
  | inf s, fin _ => s
  | fin _, inf t => !t

/-- Go conversion `float64(n)` of a non-negative `int`. -/
def ofNat (R : Rounding) (n : ℕ) : F64 := fin (R.rnd (n : ℚ))

end F64

/-- Nearest integer to a rational, halfway cases away from zero. -/
def roundHalfAway (q : ℚ) : ℤ :=
  if 0 ≤ q then ⌊q + 1 / 2⌋ else -⌊-q + 1 / 2⌋

/-- Go `math.Round`: nearest integer, halfway cases away from zero; infinities and NaN
are returned unchanged. The result of rounding a finite value is an integer, which the
format represents exactly. -/
def mathRound : F64 → F64
  | .fin q => .fin (roundHalfAway q)
  | x => x


/-! ## Data model (`types.go`, and the text-detection output of the AWS SDK)

Fields that the handler never reads (polygons, lines, spans, paragraphs, styles, languages,
timestamps, usage counters) are left out. -/

/-- Element of `AnalyzeResult.Pages[i].Words`. The confidence is a decoded JSON number,
hence finite. -/
structure Word where
  content : String
  confidence : ℚ

/-- Element of `AnalyzeResult.Pages`. -/
structure Page where
  pageNumber : Int
  unit : String
  words : List Word
  kind : String

/-- Go struct `AnalyzeResult`. -/
structure AnalyzeResult where
  apiVersion : String
  modelID : String
  stringIndexType : String
  content : String
  pages : List Page

/-- Go struct `OCRAnalysisResult`. -/
structure OCRAnalysisResult where
  status : String
  analyzeResult : AnalyzeResult

/-- Go struct `rekognition.TextDetection`; the three pointer fields the handler dereferences
are taken to be set, as the service always sets them. -/
structure TextDetection where
  detectedText : String
  type : String
  confidence : ℚ

/-- Go struct `rekognition.DetectTextOutput`. -/
structure DetectTextOutput where
  textDetections : List TextDetection

/-- Go struct `Message`. -/
structure Message where
  role : String
  content : String

/-- Go struct `Choice`. -/
structure Choice where
  index : Int
  finishReason : String
  message : Message

/-- Go struct `GPTResult`. -/
structure GPTResult where
  id : String
  object : String
  created : Int
  model : String
  choices : List Choice

/-! ## Confidence normalizers and transcript -/

/-- Go `fetchCombinedNormalizedConfidenceScoreForAzure`: the pair is
`(confidenceScore, countWords)` as updated by the two nested loops. -/
def fetchCombinedNormalizedConfidenceScoreForAzure (R : Rounding) (result : AnalyzeResult) :
    F64 :=
  let acc : F64 × ℕ :=
    result.pages.foldl
      (fun st p => p.words.foldl
        (fun st w => (F64.add R st.1 (F64.fin w.confidence), st.2 + 1)) st)
      (F64.fin 0, 0)
  let confidenceScore := F64.mul R (F64.div R acc.1 (F64.ofNat R acc.2)) (F64.fin 10)
  mathRound confidenceScore

/-- Go `fetchCombinedNormalizedConfidenceScoreForAWS`. -/
def fetchCombinedNormalizedConfidenceScoreForAWS (R : Rounding) (input : DetectTextOutput) :
    F64 :=
  let acc : F64 × ℕ :=
    input.textDetections.foldl
      (fun st text =>
        if text.type = "WORD" then
          (F64.add R st.1 (F64.div R (F64.fin text.confidence) (F64.fin 10)), st.2 + 1)
        else st)
      (F64.fin 0, 0)
  let confidenceScore := F64.div R acc.1 (F64.ofNat R acc.2)
  mathRound confidenceScore

/-- Go `fetchFullTextFromOCRTextAWS`: the accumulator is the `strings.Builder`. -/
def fetchFullTextFromOCRTextAWS (imageResp : DetectTextOutput) : String :=
  imageResp.textDetections.foldl
    (fun sb text => if text.type = "WORD" then (sb ++ text.detectedText) ++ " " else sb) ""

/-! ## Decoded JSON, outcomes and external services -/

/-- A Go `interface{}` holding a decoded JSON value (`nil`, `bool`, `float64`, `string`,
`[]interface{}`, `map[string]interface{}`). -/
inductive JVal where
  | null
  | bool (b : Bool)
  | num (x : ℚ)
  | str (s : String)
  | arr (xs : List JVal)
  | obj (kvs : List (String × JVal))

/-- A Go `map[string]interface{}`: `none` is the nil map, `some kvs` lists the entries
(one per key). -/
abbrev GoMap := Option (List (String × JVal))

/-- Go struct `payload`. -/
structure payload where
  docType : String
  countryCode : String
  frontURL : String
  backURL : String
  gptPrompt : String
  outputFields : String

/-- Go struct `events.APIGatewayProxyResponse`. The field `body` holds the map whose
`json.Marshal` encoding is the body string (the nil map encodes as `null`). -/
structure APIGatewayProxyResponse where
  statusCode : Int
  headers : List (String × String)
  body : GoMap
  isBase64Encoded : Bool

/-- An exchange with an external service. -/
inductive Call where
  | submitOCRAnalysis (imageURL : String)
  | fetchOCRAnalysisResult (requestID : String)
  | fetchOCRAnalysisResultfromAWS (imageURL : String)
  | gptRequest (prompt : String)
  deriving DecidableEq

/-- Outcome of a Go call: a value, a returned `error` (its message), or a run-time panic. -/
inductive Res (α : Type) where
  | ok (a : α)
  | error (msg : String)
  | panic (msg : String)

/-- A computation that talks to external services: the exchanges it made, in order, and
its outcome. -/
def Run (α : Type) : Type := List Call × Res α

/-- Sequencing: the second step runs only when the first returned a value. -/
def Run.bind {α β : Type} (x : Run α) (f : α → Run β) : Run β :=
  match x with
  | (l, Res.ok a) => (l ++ (f a).1, (f a).2)
  | (l, Res.error e) => (l, Res.error e)
  | (l, Res.panic e) => (l, Res.panic e)

instance : Monad Run where
  pure a := ([], Res.ok a)
  bind := Run.bind

/-- Go `return ..., fmt.Errorf(pfx + "%v", err)` on the error branch of a call. -/
def wrapErr {α : Type} (pfx : String) (x : Run α) : Run α :=
  match x with
  | (l, Res.error e) => (l, Res.error (pfx ++ e))
  | y => y

/-- A step that makes no exchange with a service. -/
def localStep {α : Type} (r : Except String α) : Run α :=
  match r with
  | Except.ok a => ([], Res.ok a)
  | Except.error e => ([], Res.error e)

/-- A step that is one exchange `c` with a service. -/
def exchange {α : Type} (c : Call) (r : Except String α) : Run α :=
  match r with
  | Except.ok a => ([c], Res.ok a)
  | Except.error e => ([c], Res.error e)

/-- What the LLM endpoint does with one POST: `http.DefaultClient.Do` fails, or reading the
body fails, or a status code and a body arrive. -/
inductive HttpOutcome where
  | doError (err : String)
  | readError (err : String)
  | response (statusCode : ℕ) (body : String)

/-- The collaborators of the handler. The three OCR steps (`submitOCRAnalysis`,
`fetchOCRAnalysisResult`, `fetchOCRAnalysisResultfromAWS`) are HTTP exchanges whose outcome
is decided by the remote service; `gptExchange n prompt` is the outcome of the POST made by
`askGPTForPIIAnalysis`, where `n` counts the LLM exchanges already made for the job (the
service may answer the same prompt differently); the three decoders are `json.Unmarshal`
at the target types `payload`, `GPTResult` and `map[string]interface{}`. -/
structure Services where
  jsonUnmarshalPayload : String → Except String payload
  submitOCRAnalysis : String → Except String String
  fetchOCRAnalysisResult : String → Except String OCRAnalysisResult
  fetchOCRAnalysisResultfromAWS : String → Except String DetectTextOutput
  gptExchange : ℕ → String → HttpOutcome
  jsonUnmarshalGPTResult : String → Except String GPTResult
  jsonUnmarshalMap : String → Except String GoMap

/-! ## Constants and prompt templates -/

/-- Go constant `panDoc`. -/
def panDoc : String := "PAN"

/-- Go constant `aadharDoc`. -/
def aadharDoc : String := "AADHAR"

/-- Go constant `unknownDoc`. -/
def unknownDoc : String := "UNKNOWN"

/-- Go variable `systemPrompt` (raw string literal, one piece per source line). -/
def systemPrompt : String :=
  "\x7b\n" ++
  "\"messages\": [\n" ++
  "\x7b\n" ++
  "\t\"role\": \"system\",\n" ++
  "\t\"content\": \"You are a helpful assistant.\"\n" ++
  "\x7d,\n"

/-- Go variable `aadharPrompt` (raw string literal, one piece per source line). -/
def aadharPrompt : String :=
  "\n" ++
  "\t\x7b\n" ++
  "\t\t\"role\": \"user\",\n" ++
  "\t\t\"content\": \"I want you to act as OCR and PII Expert.\\n\\nI will provide you an ocr extracted sample text from an specific document type \\\"aadhaar\\\" tells you about different PII types in text. You need indentify those PII classes.\\n\\nDoc Type: \\\"aadhaar\\\"\\nSample OCR extracted text:\\n भारत सरकार Government of India\\nA\\nकुणाल गौरव Kudal Gaurav जन्म तिथि/DOB: 05/12/1989 SOU/ MALE\\nS\\nS\\nK\\n5245 5210 8456\\nमेरा आधार, मेरी पहचान\\nIn the above text:\\n\\nKudal Gaurav is Name type PII\\n05/12/1989 is Dob type PII\\n524552108456 is Aadhaar number type PII\\nMale is the Gender PII\\n\\nUnderstand the positions of different PII types in the extracted text. In the next prompts I will provide you with sample ocr text in json format and you need to answer the following fields:\\n\\n- Name\\n- Date of Birth\\n- Aadhaar number\\nGender\\n\\nThe output json looks like below.\\n\\n\x7b\\\"fullName\\\": \x7b$Name\x7d, \\\"dateOfBirth\\\": \x7b$Date of Birth\x7d, \\\"docNumber\\\": \x7b$Aadhaar number\x7d, \\\"geder\\\": \x7b$Gender\x7d, \\\"docType\\\": \x7b$Doc Type\x7d\x7d\\n\\n\\nI am describing the Input format:\\n\\n[Input]\\nDocType: \\\"some text\\\"\\nOCR Text: \\\"some text\\. Send a nil value if the field is not present in the text.\"\"\n" ++
  "\t\x7d,\n" ++
  "\t\x7b\n" ++
  "\t\t\"role\": \"user\",\n" ++
  "\t\t\"content\": \"[no prose]\\n[output only in json and return all keys with nil value in case you can't find that value]\\nDocType: \\\"aadhaar\\\"\\nOCR Text: \\\"\\n भारत सरकार Government of India\\nA\\nकुणाल गौरव Kudal Gaurav जन्म तिथि/DOB: 05/12/1989 SOU/ MALE\\nS\\nS\\nK\\n5245 5210 8456\\nमेरा आधार, मेरी पहचान\"\n" ++
  "\t\x7d,\n" ++
  "\t\x7b\n" ++
  "\t\t\"role\": \"assistant\",\n" ++
  "\t\t\"content\": \"\x7b\\n    \\\"fullName\\\": \\\"Kudal Gaurav\\\",\\n    \\\"dateOfBirth\\\": \\\"05/12/1989\\\",\\n    \\\"docNumber\\\": \\\"524552108456\\\",\\n    \\\"docType\\\": \\\"aadhaar\\\"\\n\x7d\"\n" ++
  "\t\x7d,\n" ++
  "\t\x7b\n" ++
  "\t\t\"role\": \"user\",\n" ++
  "\t\t\"content\": \"[no prose]\\n[output only in json and return all keys with nil value in case you can't find that value]\\nDocType: \\\"aadhaar\\\"\\nOCR Text: \\\"\n" ++
  "\t\n"

/-- Go variable `panPrompt` (raw string literal, one piece per source line). -/
def panPrompt : String :=
  "\n" ++
  "\x7b\n" ++
  "\t\"role\": \"user\",\n" ++
  "\t\"content\": \"I want you to act as OCR and PII Expert.\\n\\nI will provide you an ocr extracted sample text from an specific document type \\\"PAN\\\" tells you about different PII types in text. You need indentify those PII classes.\\n\\nDoc Type: \\\"PAN\\\"\\nSample OCR extracted text:\\n\\nआयकर विभाग INCOME TAX DEPARTMENT SHEKH ATAUL\\\\nSHEKH MUJAFFAR ALI\\\\n03/02/1998 Permanent Account Number BWPPA3202G\\\\nSignature\\\\nभारत सरकार GOVT. OF INDIA\\\\n16082016\\n\\n\\nIn the above text:\\n\\nSHEKH ATAUL is Name type PII\\nSHEKH MUJAFFAR ALI is Fathers Name type PII\\n03/02/1998 is Dob type PII\\nBWPPA3202G is Pan number type PII\\n16/08/2016 is Issue date type PII\\n\\n\\nUnderstand the positions of different PII types in the extracted text. In the next prompts I will provide you with sample ocr text in json format and you need to answer the following fields:\\n\\n- Name\\n- Fathers Name\\n- Date of Birth\\n- Pan number\\n- Issuer Date\\n\\n\\nThe output json looks like below.\\n\\n\x7b\\\"fullName\\\": \x7b$Name\x7d, \\\"fatherName\\\": \x7b$Fathers Name\x7d, \\\"dateOfBirth\\\": \x7b$Date of Birth\x7d, \\\"docNumber\\\": \x7b$Pan number\x7d, \\\"issueDate\\\": \x7b$Issuer Date\x7d, \\\"docType\\\": \x7b$Doc Type\x7d\x7d\\n\\n\\nI am describing the Input format:\\n\\n[Input]\\nDocType: \\\"some text\\\"\\nOCR Text: \\\"some text\\\"\"\n" ++
  "\x7d,\n" ++
  "\x7b\n" ++
  "\t\"role\": \"user\",\n" ++
  "\t\"content\": \"[no prose]\\n[output only in json]\\nDocType: \\\"PAN\\\"\\nOCR Text: \\\"भारत सरकार\\\\nआयकर विभाग\\\\nINCOME TAX DEPARTMENT\\\\nSANTOSHBHAI BHAVSAR\\\\nSUKHLAL JAGANNATH BHAVSAR\\\\n02/07/1976\\\\nPermanent Account Number APWPB3057M\\\\nS.S land\\\\nSignature\\\\nGOVT. OF INDIA\\\\n10052008\\\"2\\\"\"\n" ++
  "\x7d,\n" ++
  "\x7b\n" ++
  "\t\"role\": \"assistant\",\n" ++
  "\t\"content\": \"\x7b\\n    \\\"fullName\\\": \\\"SANTOSHBHAI BHAVSAR\\\",\\n    \\\"fatherName\\\": \\\"SUKHLAL JAGANNATH BHAVSAR\\\",\\n    \\\"dateOfBirth\\\": \\\"02/07/1976\\\",\\n    \\\"docNumber\\\": \\\"APWPB3057M\\\",\\n    \\\"issueDate\\\": \\\"10/05/2008\\\",\\n    \\\"docType\\\": \\\"PAN\\\"\\n\x7d\"\n" ++
  "\x7d,\n" ++
  "\x7b\n" ++
  "\t\"role\": \"user\",\n" ++
  "\t\"content\": \"[no prose]\\n[output only in json and return nil when there are no values ]\\nDocType: \\\"PAN\\\"\\nOCR Text: \\\"\n"

/-- Go variable `noneTypeDocPrompt` (raw string literal, one piece per source line). -/
def noneTypeDocPrompt : String :=
  "\n" ++
  "\x7b\n" ++
  "\t\"role\": \"user\",\n" ++
  "\t\"content\": \"I want you to act as an OCR and PII Expert.\\n\\nI will provide you with a sample text extracted from an unspecified document. The text contains information about different types of Personally Identifiable Information (PII). Your task is to identify these PII classes. In the next prompt, I will provide you with a list of fields that I need to extract from the OCR text. You should return an output JSON that contains exactly these keys from the desired fields, along with their corresponding values found in the OCR text. If a field is not present in the text, please provide a nil value for that field.\"\n" ++
  "\t\x7d,\n" ++
  "\t\x7b\n" ++
  "\t\"role\": \"user\",\n" ++
  "\t\"content\": \"[no prose]\\n[Output should be in the desired JSON format, including all keys with a nil value if the value couldn't be found in the OCR text.]OCR Text: \"\n"

/-- Go variable `desiredJsonPrefixPrompt` (raw string literal, one piece per source line). -/
def desiredJsonPrefixPrompt : String :=
  " and Desired fields:"

/-- Go variable `endPrompt` (raw string literal, one piece per source line). -/
def endPrompt : String :=
  ",\n" ++
  "\x7d\n" ++
  "]\n" ++
  "\x7d"

/-! ## Responses -/

/-- Go `buildErrorResp`, applied to the message of the error. -/
def buildErrorResp (err : String) : APIGatewayProxyResponse :=
  { statusCode := 500
    headers := [("Content-Type", "application/json")]
    body := some [("error", JVal.str err)]
    isBase64Encoded := false }

/-- Go `buildSuccessResponse`. -/
def buildSuccessResponse (d : GoMap) : APIGatewayProxyResponse :=
  { statusCode := 200
    headers := [("Content-Type", "application/json")]
    body := d
    isBase64Encoded := false }

/-! ## LLM client -/

/-- Go `strings.ReplaceAll(s, "\n", "\\n")`: every line feed becomes the two characters
backslash and `n`. -/
def escapeNewlines (s : String) : String :=
  String.mk (s.data.flatMap (fun c => if c = '\n' then ['\\', 'n'] else [c]))

/-- The request body assembled by `askGPTForPIIAnalysis` (the `switch docType` has no
default branch: for any other document type the prompt stays empty). -/
def buildPrompt (ocrExtractedText docType desiredJSON : String) : String :=
  let escaped := escapeNewlines ocrExtractedText
  if docType = aadharDoc then
    systemPrompt ++ aadharPrompt ++ escaped ++ endPrompt
  else if docType = panDoc then
    systemPrompt ++ panPrompt ++ escaped ++ endPrompt
  else if docType = unknownDoc then
    systemPrompt ++ noneTypeDocPrompt ++ escaped ++ desiredJsonPrefixPrompt ++ desiredJSON
      ++ endPrompt
  else ""

/-- Go `askGPTForPIIAnalysis`; `n` is the number of LLM exchanges already made for the job.
`http.NewRequest` is called with a fixed method and URL and cannot fail. The last step is
`d.Choices[0].Message.Content`, which panics on an empty slice. -/
def askGPTForPIIAnalysis (sv : Services) (n : ℕ)
    (ocrExtractedText docType desiredJSON : String) : Run String :=
  let prompt := buildPrompt ocrExtractedText docType desiredJSON
  match sv.gptExchange n prompt with
  | HttpOutcome.doError err =>
      ([Call.gptRequest prompt], Res.error ("failed to make request: " ++ err))
  | HttpOutcome.readError err =>
      ([Call.gptRequest prompt], Res.error ("failed to read response: " ++ err))
  | HttpOutcome.response statusCode respBytes =>
      if statusCode ≠ 200 then
        ([Call.gptRequest prompt],
          Res.error ("received unexpected status code in response: " ++ toString statusCode))
      else
        match sv.jsonUnmarshalGPTResult respBytes with
        | Except.error err =>
            ([Call.gptRequest prompt], Res.error ("failed to decode response body: " ++ err))
        | Except.ok d =>
            match d.choices with
            | [] =>
                ([Call.gptRequest prompt],
                  Res.panic "runtime error: index out of range [0] with length 0")
            | c :: _ => ([Call.gptRequest prompt], Res.ok c.message.content)

/-! ## Reconciliation -/

/-- Go `v != "nil"` for `v` of type `interface{}`: false only for the string `"nil"`. -/
def JVal.neNilString : JVal → Bool
  | JVal.str s => s != "nil"
  | _ => true

/-- The counting loops of `doDocAnalysis` (`for _, v := range m { if v != "nil" { n++ } }`);
ranging over the nil map runs no iteration. -/
def nonNullCount (m : GoMap) : ℕ :=
  match m with
  | none => 0
  | some kvs => kvs.foldl (fun n kv => if kv.2.neNilString then n + 1 else n) 0

/-- The final `if / else if / else` of `doDocAnalysis`, on the two decoded maps and the two
scores. -/
def selectResult (gptResultAzureMap gptResultAWSMap : GoMap)
    (azureResultScore awsResultScore : F64) : GoMap :=
  let azureNonNullCount := nonNullCount gptResultAzureMap
  let awsNonNullCount := nonNullCount gptResultAWSMap
  if azureNonNullCount > awsNonNullCount then
    gptResultAzureMap
  else if azureNonNullCount < awsNonNullCount then
    gptResultAWSMap
  else
    if F64.gt azureResultScore awsResultScore then
      gptResultAzureMap
    else
      gptResultAWSMap

/-- Go `doDocAnalysis`. -/
def doDocAnalysis (sv : Services) (R : Rounding) (imageURL docType desiredFields : String) :
    Run GoMap := do
  let analysisReqID ← wrapErr "failed to submit ocr analysis: "
    (exchange (Call.submitOCRAnalysis imageURL) (sv.submitOCRAnalysis imageURL))
  let result ← wrapErr "failed to fetch ocr analysis result: "
    (exchange (Call.fetchOCRAnalysisResult analysisReqID)
      (sv.fetchOCRAnalysisResult analysisReqID))
  let azureOCRContent := result.analyzeResult.content
  let resultfromaws ← wrapErr "failed to fetch ocr analysis result from aws: "
    (exchange (Call.fetchOCRAnalysisResultfromAWS imageURL)
      (sv.fetchOCRAnalysisResultfromAWS imageURL))
  let awsOCRContent := fetchFullTextFromOCRTextAWS resultfromaws
  let azureResultScore := fetchCombinedNormalizedConfidenceScoreForAzure R result.analyzeResult
  let awsResultScore := fetchCombinedNormalizedConfidenceScoreForAWS R resultfromaws
  let gptResultRawAzure ← wrapErr "failed to ask gpt for PII analysis: "
    (askGPTForPIIAnalysis sv 0 azureOCRContent docType desiredFields)
  let gptResultRawAWS ← wrapErr "failed to ask gpt for PII analysis: "
    (askGPTForPIIAnalysis sv 1 awsOCRContent docType desiredFields)
  let gptResultAzureMap ← wrapErr "failed to decode gpt result: "
    (localStep (sv.jsonUnmarshalMap gptResultRawAzure))
  let gptResultAWSMap ← wrapErr "failed to decode gpt result: "
    (localStep (sv.jsonUnmarshalMap gptResultRawAWS))
  pure (selectResult gptResultAzureMap gptResultAWSMap azureResultScore awsResultScore)

/-! ## Request handler -/

/-- Go `strings.ToUpper` on ASCII letters (the three document-type constants are ASCII, and
no non-ASCII letter has an upper case among the letters they are made of). -/
def toUpper (s : String) : String :=
  String.mk (s.data.map Char.toUpper)

/-- One `case` body of the `switch` in `HandleRequest`: run the analysis, answer with the
error envelope when it returns an error and with the success response otherwise. -/
def analysisResponse (errText : String) (x : Run GoMap) : Run APIGatewayProxyResponse :=
  match x with
  | (l, Res.ok result) => (l, Res.ok (buildSuccessResponse result))
  | (l, Res.error err) => (l, Res.ok (buildErrorResp (errText ++ err)))
  | (l, Res.panic e) => (l, Res.panic e)

/-- Go `HandleRequest`, applied to `req.Body`. The `switch docType` has the three cases
`panDoc`, `aadharDoc`, `unknownDoc` and no default case: for any other value `result` is
still the nil map when `buildSuccessResponse(result)` is reached. -/
def HandleRequest (sv : Services) (R : Rounding) (reqBody : String) :
    Run APIGatewayProxyResponse :=
  match sv.jsonUnmarshalPayload reqBody with
  | Except.error err => pure (buildErrorResp ("failed to unmarshal input:" ++ err))
  | Except.ok input =>
    let docType := if input.docType = "" then "UNKNOWN" else toUpper input.docType
    if docType = panDoc then
      analysisResponse "failed to do pan analysis: "
        (doDocAnalysis sv R input.frontURL panDoc "")
    else if docType = aadharDoc then
      analysisResponse "failed to do aadhar analysis: "
        (doDocAnalysis sv R input.frontURL aadharDoc "")
    else if docType = unknownDoc then
      if input.outputFields = "" then
        pure (buildErrorResp "for empty docType provide a desired output JSON in OutputJSON")
      else
        analysisResponse "failed to do unknown doc analysis: "
          (doDocAnalysis sv R input.frontURL unknownDoc input.outputFields)
    else
      pure (buildSuccessResponse none)

/-! ## Vocabulary of the statements -/

/-- The value of `s` after `for _, c := range cs { s += c }` on finite floats. -/
def floatSum (R : Rounding) (s : ℚ) (cs : List ℚ) : ℚ :=
  cs.foldl (fun s c => R.rnd (s + c)) s

/-- All words of a layout-aware result, page after page. -/
def AnalyzeResult.allWords (result : AnalyzeResult) : List Word :=
  result.pages.flatMap (fun p => p.words)

/-- The confidences of all words of a layout-aware result, page after page. -/
def AnalyzeResult.confidences (result : AnalyzeResult) : List ℚ :=
  result.allWords.map (fun w => w.confidence)

/-- The detections of type `WORD`, in detection order. -/
def DetectTextOutput.wordDetections (input : DetectTextOutput) : List TextDetection :=
  input.textDetections.filter (fun t => decide (t.type = "WORD"))

/-- The float64 value that `fetchCombinedNormalizedConfidenceScoreForAzure` hands to
`math.Round` when there is at least one word: the confidences of all words are added one by
one, the sum is divided by the converted word count, and the quotient is multiplied by 10,
each operation rounded by `R`. -/
def azureScaledMean (R : Rounding) (result : AnalyzeResult) : ℚ :=
  R.rnd (R.rnd (floatSum R 0 result.confidences / R.rnd (result.allWords.length : ℚ)) * 10)

/-- The float64 value that `fetchCombinedNormalizedConfidenceScoreForAWS` hands to
`math.Round` when there is at least one `WORD` detection: each `WORD` confidence is divided
by 10, the quotients are added one by one, and the sum is divided by the converted number of
`WORD` detections, each operation rounded by `R`. -/
def awsScaledMean (R : Rounding) (input : DetectTextOutput) : ℚ :=
  R.rnd (floatSum R 0 (input.wordDetections.map (fun t => R.rnd (t.confidence / 10)))
    / R.rnd (input.wordDetections.length : ℚ))

/-- Scan of the inside of a JSON string literal (RFC 8259, section 7): a backslash takes the
next character with it, and the first quotation mark that is not escaped in this way ends
the literal. The result tells whether the text holds such a quotation mark. -/
def hasUnescapedQuote : List Char → Bool
  | [] => false
  | c :: cs =>
    if c = '\\' then
      match cs with
      | [] => false
      | _ :: rest => hasUnescapedQuote rest
    else if c = '"' then true
    else hasUnescapedQuote cs

/-- A run of `doDocAnalysis` reaches the selection step: the three OCR steps succeed with
`result` and `resultfromaws`, both LLM calls return an answer, and the two answers decode to
`gptResultAzureMap` and `gptResultAWSMap`. -/
def ReachesSelection (sv : Services) (imageURL docType desiredFields : String)
    (result : OCRAnalysisResult) (resultfromaws : DetectTextOutput)
    (gptResultAzureMap gptResultAWSMap : GoMap) : Prop :=
  ∃ analysisReqID gptResultRawAzure gptResultRawAWS : String,
    sv.submitOCRAnalysis imageURL = Except.ok analysisReqID ∧
    sv.fetchOCRAnalysisResult analysisReqID = Except.ok result ∧
    sv.fetchOCRAnalysisResultfromAWS imageURL = Except.ok resultfromaws ∧
    (askGPTForPIIAnalysis sv 0 result.analyzeResult.content docType desiredFields).2
      = Res.ok gptResultRawAzure ∧
    (askGPTForPIIAnalysis sv 1 (fetchFullTextFromOCRTextAWS resultfromaws) docType
      desiredFields).2 = Res.ok gptResultRawAWS ∧
    sv.jsonUnmarshalMap gptResultRawAzure = Except.ok gptResultAzureMap ∧
    sv.jsonUnmarshalMap gptResultRawAWS = Except.ok gptResultAWSMap

/-! ## Sample inputs -/

/-- A three-page layout-aware result; the second page has no word. Exact score: 9. -/
def sampleAnalyzeResult : AnalyzeResult :=
  { apiVersion := "2022-08-31"
    modelID := "prebuilt-read"
    stringIndexType := "textElements"
    content := "INCOME TAX\nDEPARTMENT"
    pages :=
      [ { pageNumber := 1, unit := "pixel", kind := "document",
          words := [⟨"INCOME", 9 / 10⟩, ⟨"TAX", 4 / 5⟩] },
        { pageNumber := 2, unit := "pixel", kind := "document", words := [] },
        { pageNumber := 3, unit := "pixel", kind := "document",
          words := [⟨"DEPARTMENT", 19 / 20⟩] } ] }

/-- A text-detection output with one `LINE` and two `WORD` detections. Exact score: 10. -/
def sampleDetections : DetectTextOutput :=
  ⟨[⟨"INCOME TAX", "LINE", 99⟩, ⟨"INCOME", "WORD", 97⟩, ⟨"TAX", "WORD", 99⟩]⟩

/-- A text-detection output with two `WORD` detections of lower confidence. Exact score: 7. -/
def lowDetections : DetectTextOutput :=
  ⟨[⟨"INCOME TAX", "LINE", 99⟩, ⟨"INCOME", "WORD", 42⟩, ⟨"TAX", "WORD", 97⟩]⟩

/-- A text-detection output without any `WORD` detection. -/
def lineOnlyDetections : DetectTextOutput :=
  ⟨[⟨"INCOME TAX", "LINE", 99⟩]⟩

/-- A field map with three values, none of them `"nil"`. -/
def sampleMapFull : GoMap :=
  some [("fullName", JVal.str "SHEKH ATAUL"), ("dateOfBirth", JVal.str "03/02/1998"),
    ("docNumber", JVal.str "BWPPA3202G")]

/-- A field map with three values, one of them `"nil"`. -/
def sampleMapWithNil : GoMap :=
  some [("fullName", JVal.str "SHEKH ATAUL"), ("dateOfBirth", JVal.str "nil"),
    ("docNumber", JVal.str "BWPPA3202G")]

/-- A field map with three values, none of them `"nil"`, differing from `sampleMapFull`. -/
def sampleMapOther : GoMap :=
  some [("fullName", JVal.str "SHEKH ATAUI"), ("dateOfBirth", JVal.str "03/02/1998"),
    ("docNumber", JVal.str "BWPPA32O2G")]

/-- Collaborators for the examples: the request body decodes to `input`, the OCR steps
return `azure` and `aws`, the LLM answers its first exchange with `"A"` and the later ones
with `"B"` as the content of a single choice, and these two answers decode to `mapAzure`
and `mapAWS`. -/
def sampleServices (input : payload) (azure : AnalyzeResult) (aws : DetectTextOutput)
    (mapAzure mapAWS : GoMap) : Services where
  jsonUnmarshalPayload := fun _ => Except.ok input
  submitOCRAnalysis := fun _ => Except.ok "request-1"
  fetchOCRAnalysisResult := fun _ => Except.ok ⟨"succeeded", azure⟩
  fetchOCRAnalysisResultfromAWS := fun _ => Except.ok aws
  gptExchange := fun n _ => HttpOutcome.response 200 (if n = 0 then "A" else "B")
  jsonUnmarshalGPTResult := fun body =>
    Except.ok ⟨"chatcmpl-1", "chat.completion", 0, "gpt-turbo", [⟨0, "stop", ⟨"assistant", body⟩⟩]⟩
  jsonUnmarshalMap := fun raw => if raw = "A" then Except.ok mapAzure else Except.ok mapAWS

/-- A request for a PAN card. -/
def samplePanRequest : payload :=
  { docType := "pan", countryCode := "IN", frontURL := "https://example.org/pan.jpg",
    backURL := "", gptPrompt := "", outputFields := "" }

/-- The sample collaborators for a PAN request. -/
def samplePanServices : Services :=
  sampleServices samplePanRequest sampleAnalyzeResult sampleDetections sampleMapFull
    sampleMapOther

/-- The sample collaborators, with the submission to the layout-aware provider failing. -/
def submitFailsServices : Services :=
  { samplePanServices with
    submitOCRAnalysis := fun _ =>
      Except.error "received unexpected status code in response: 504" }

/-- The sample collaborators, with the retrieval from the layout-aware provider failing. -/
def fetchFailsServices : Services :=
  { samplePanServices with
    fetchOCRAnalysisResult := fun _ => Except.error "failed to make request: timeout" }

/-- The sample collaborators, with the text-detection provider failing. -/
def awsFailsServices : Services :=
  { samplePanServices with
    fetchOCRAnalysisResultfromAWS := fun _ =>
      Except.error "failed to call AWS rekognition: timeout" }

/-- The sample collaborators, with every HTTP 200 answer of the LLM decoding to an envelope
without choices (as the bodies `\x7b\x7d` and `\x7b"choices": []\x7d` do). -/
def emptyChoicesServices : Services :=
  { samplePanServices with
    jsonUnmarshalGPTResult := fun _ =>
      Except.ok ⟨"chatcmpl-1", "chat.completion", 0, "gpt-turbo", []⟩ }

/-- A field map with three JSON `null` values. -/
def sampleMapNulls : GoMap :=
  some [("fullName", JVal.null), ("dateOfBirth", JVal.null), ("docNumber", JVal.null)]

/-- A field map with three `"nil"` strings. -/
def sampleMapNils : GoMap :=
  some [("fullName", JVal.str "nil"), ("dateOfBirth", JVal.str "nil"),
    ("docNumber", JVal.str "nil")]

/-! # Properties -/

/-! ## Rounding and float lemmas -/

theorem Rounding.rnd_zero (R : Rounding) : R.rnd 0 = 0 := by
  have h := R.nat_exact 0 (Nat.zero_le _)
  simpa using h

theorem Rounding.rnd_one (R : Rounding) : R.rnd 1 = 1 := by
  have h := R.nat_exact 1 (Nat.one_le_two_pow)
  simpa using h

theorem Rounding.rnd_ten (R : Rounding) : R.rnd 10 = 10 := by
  have h := R.nat_exact 10 (by norm_num)
  simpa using h

theorem Rounding.rnd_nat_pos (R : Rounding) {n : ℕ} (hn : 0 < n) : 0 < R.rnd (n : ℚ) := by
  have h1 : (1 : ℚ) ≤ (n : ℚ) := by exact_mod_cast hn
  have h2 := R.mono h1
  rw [R.rnd_one] at h2
  linarith

theorem Rounding.exact_rnd (x : ℚ) : Rounding.exact.rnd x = x := rfl

theorem roundHalfAway_mono {a b : ℚ} (h : a ≤ b) : roundHalfAway a ≤ roundHalfAway b := by
  unfold roundHalfAway
  by_cases ha : 0 ≤ a
  · have hb : 0 ≤ b := le_trans ha h
    rw [if_pos ha, if_pos hb]
    exact Int.floor_mono (by linarith)
  · rw [if_neg ha]
    by_cases hb : 0 ≤ b
    · rw [if_pos hb]
      have h1 : (0 : ℤ) ≤ ⌊-a + 1 / 2⌋ := Int.floor_nonneg.mpr (by linarith [not_le.mp ha])
      have h2 : (0 : ℤ) ≤ ⌊b + 1 / 2⌋ := Int.floor_nonneg.mpr (by linarith)
      linarith
    · rw [if_neg hb]
      have : ⌊-b + 1 / 2⌋ ≤ ⌊-a + 1 / 2⌋ := Int.floor_mono (by linarith)
      linarith

theorem roundHalfAway_range {q : ℚ} (h0 : 0 ≤ q) (h10 : q ≤ 10) :
    0 ≤ roundHalfAway q ∧ roundHalfAway q ≤ 10 := by
  unfold roundHalfAway
  rw [if_pos h0]
  constructor
  · exact Int.floor_nonneg.mpr (by linarith)
  · have : ⌊q + 1 / 2⌋ < 11 := Int.floor_lt.mpr (by push_cast; linarith)
    omega

theorem floatSum_cons (R : Rounding) (s c : ℚ) (cs : List ℚ) :
    floatSum R s (c :: cs) = floatSum R (R.rnd (s + c)) cs := rfl

theorem floatSum_append (R : Rounding) (s : ℚ) (l₁ l₂ : List ℚ) :
    floatSum R s (l₁ ++ l₂) = floatSum R (floatSum R s l₁) l₂ := by
  simp [floatSum, List.foldl_append]

theorem floatSum_mono_init (R : Rounding) (l : List ℚ) {s s' : ℚ} (h : s ≤ s') :
    floatSum R s l ≤ floatSum R s' l := by
  induction l generalizing s s' with
  | nil => simpa [floatSum] using h
  | cons c cs ih =>
    rw [floatSum_cons, floatSum_cons]
    exact ih (R.mono (by linarith))

theorem floatSum_mono_elem (R : Rounding) (s : ℚ) (l₁ l₂ : List ℚ) {x y : ℚ} (h : x ≤ y) :
    floatSum R s (l₁ ++ x :: l₂) ≤ floatSum R s (l₁ ++ y :: l₂) := by
  rw [floatSum_append, floatSum_append, floatSum_cons, floatSum_cons]
  exact floatSum_mono_init R l₂ (R.mono (by linarith))

/-- Bounds of a float sum of `l.length` terms lying in `[0, B]`, when the naturals up to
`B * (k + l.length)` are exact. -/
theorem floatSum_bounds (R : Rounding) (B : ℕ) (l : List ℚ) (k : ℕ) (s : ℚ)
    (hex : ∀ m : ℕ, m ≤ B * (k + l.length) → R.rnd (m : ℚ) = (m : ℚ))
    (hl : ∀ c ∈ l, 0 ≤ c ∧ c ≤ (B : ℚ)) (hs0 : 0 ≤ s) (hs : s ≤ (B : ℚ) * (k : ℚ)) :
    0 ≤ floatSum R s l ∧ floatSum R s l ≤ (B : ℚ) * ((k + l.length : ℕ) : ℚ) := by
  induction l generalizing k s with
  | nil => simpa [floatSum] using ⟨hs0, hs⟩
  | cons c cs ih =>
    rw [floatSum_cons]
    have hc := hl c (List.mem_cons_self _ _)
    have hlen : k + (c :: cs).length = (k + 1) + cs.length := by simp; omega
    have h0 : 0 ≤ R.rnd (s + c) := by
      have := R.mono (show (0 : ℚ) ≤ s + c by linarith [hc.1])
      rwa [R.rnd_zero] at this
    have h1 : R.rnd (s + c) ≤ (B : ℚ) * ((k + 1 : ℕ) : ℚ) := by
      have hle : s + c ≤ ((B * (k + 1) : ℕ) : ℚ) := by push_cast; linarith [hc.2]
      have := R.mono hle
      rw [hex (B * (k + 1)) (by rw [hlen]; exact Nat.mul_le_mul_left B (by omega))] at this
      simpa using this
    have := ih (k + 1) (R.rnd (s + c)) (by rw [← hlen]; exact hex)
      (fun x hx => hl x (List.mem_cons_of_mem _ hx)) h0 h1
    rw [hlen]
    exact this

/-! ## The loops of the normalizers -/

theorem F64.add_fin (R : Rounding) (a b : ℚ) :
    F64.add R (F64.fin a) (F64.fin b) = F64.fin (R.rnd (a + b)) := rfl

theorem F64.div_fin_ten (R : Rounding) (a : ℚ) :
    F64.div R (F64.fin a) (F64.fin 10) = F64.fin (R.rnd (a / 10)) := by
  simp [F64.div]

theorem azure_words_loop (R : Rounding) (ws : List Word) (s : ℚ) (n : ℕ) :
    ws.foldl (fun st w => (F64.add R st.1 (F64.fin w.confidence), st.2 + 1))
        ((F64.fin s, n) : F64 × ℕ)
      = (F64.fin (floatSum R s (ws.map (fun w => w.confidence))), n + ws.length) := by
  induction ws generalizing s n with
  | nil => simp [floatSum]
  | cons w ws ih =>
    rw [List.foldl_cons, F64.add_fin, ih, List.map_cons, floatSum_cons, List.length_cons]
    congr 1
    omega

theorem azure_pages_loop (R : Rounding) (ps : List Page) (s : ℚ) (n : ℕ) :
    ps.foldl (fun st p => p.words.foldl
        (fun st w => (F64.add R st.1 (F64.fin w.confidence), st.2 + 1)) st)
        ((F64.fin s, n) : F64 × ℕ)
      = (F64.fin (floatSum R s ((ps.flatMap (fun p => p.words)).map (fun w => w.confidence))),
          n + (ps.flatMap (fun p => p.words)).length) := by
  induction ps generalizing s n with
  | nil => simp [floatSum]
  | cons p ps ih =>
    simp only [List.foldl_cons, List.flatMap_cons, List.map_append, List.length_append]
    rw [azure_words_loop, ih, floatSum_append]
    congr 1
    omega

/-- The layout-aware score before the case split on the count. -/
theorem azure_score_eq (R : Rounding) (result : AnalyzeResult) :
    fetchCombinedNormalizedConfidenceScoreForAzure R result
      = mathRound (F64.mul R
          (F64.div R (F64.fin (floatSum R 0 result.confidences))
            (F64.ofNat R result.allWords.length)) (F64.fin 10)) := by
  unfold fetchCombinedNormalizedConfidenceScoreForAzure
  simp only [azure_pages_loop, AnalyzeResult.confidences, AnalyzeResult.allWords, zero_add]

/-- The layout-aware score of a result with at least one word. -/
theorem azure_score_pos (R : Rounding) (result : AnalyzeResult)
    (h : 0 < result.allWords.length) :
    fetchCombinedNormalizedConfidenceScoreForAzure R result
      = F64.fin (roundHalfAway (R.rnd (R.rnd (floatSum R 0 result.confidences
          / R.rnd (result.allWords.length : ℚ)) * 10))) := by
  rw [azure_score_eq]
  have hne : R.rnd (result.allWords.length : ℚ) ≠ 0 := ne_of_gt (R.rnd_nat_pos h)
  simp [F64.div, F64.ofNat, F64.mul, mathRound, hne]

theorem aws_loop (R : Rounding) (ds : List TextDetection) (s : ℚ) (n : ℕ) :
    ds.foldl (fun st text =>
        if text.type = "WORD" then
          (F64.add R st.1 (F64.div R (F64.fin text.confidence) (F64.fin 10)), st.2 + 1)
        else st) ((F64.fin s, n) : F64 × ℕ)
      = (F64.fin (floatSum R s
            ((ds.filter (fun t => decide (t.type = "WORD"))).map
              (fun t => R.rnd (t.confidence / 10)))),
          n + (ds.filter (fun t => decide (t.type = "WORD"))).length) := by
  induction ds generalizing s n with
  | nil => simp [floatSum]
  | cons d ds ih =>
    by_cases hd : d.type = "WORD"
    · have hf : (d :: ds).filter (fun t => decide (t.type = "WORD"))
          = d :: ds.filter (fun t => decide (t.type = "WORD")) := by
        simp [List.filter_cons, hd]
      rw [List.foldl_cons, if_pos hd, F64.div_fin_ten, F64.add_fin, ih, hf, List.map_cons,
        floatSum_cons, List.length_cons]
      congr 1
      omega
    · have hf : (d :: ds).filter (fun t => decide (t.type = "WORD"))
          = ds.filter (fun t => decide (t.type = "WORD")) := by
        simp [List.filter_cons, hd]
      rw [List.foldl_cons, if_neg hd, ih, hf]

/-- The text-detection score before the case split on the count. -/
theorem aws_score_eq (R : Rounding) (input : DetectTextOutput) :
    fetchCombinedNormalizedConfidenceScoreForAWS R input
      = mathRound (F64.div R
          (F64.fin (floatSum R 0 (input.wordDetections.map (fun t => R.rnd (t.confidence / 10)))))
          (F64.ofNat R input.wordDetections.length)) := by
  unfold fetchCombinedNormalizedConfidenceScoreForAWS
  simp only [aws_loop, DetectTextOutput.wordDetections, zero_add]

/-- The text-detection score of an output with at least one `WORD` detection. -/
theorem aws_score_pos (R : Rounding) (input : DetectTextOutput)
    (h : 0 < input.wordDetections.length) :
    fetchCombinedNormalizedConfidenceScoreForAWS R input
      = F64.fin (roundHalfAway (R.rnd
          (floatSum R 0 (input.wordDetections.map (fun t => R.rnd (t.confidence / 10)))
            / R.rnd (input.wordDetections.length : ℚ)))) := by
  rw [aws_score_eq]
  have hne : R.rnd (input.wordDetections.length : ℚ) ≠ 0 := ne_of_gt (R.rnd_nat_pos h)
  simp [F64.div, F64.ofNat, mathRound, hne]

/-- With no qualifying word both normalizers divide `0.0` by `float64(0)`. -/
theorem azure_score_zero (R : Rounding) (result : AnalyzeResult)
    (h : result.allWords = []) :
    fetchCombinedNormalizedConfidenceScoreForAzure R result = F64.nan := by
  rw [azure_score_eq]
  simp [AnalyzeResult.confidences, h, floatSum, F64.div, F64.ofNat, F64.mul, mathRound,
    R.rnd_zero]

theorem aws_score_zero (R : Rounding) (input : DetectTextOutput)
    (h : input.wordDetections = []) :
    fetchCombinedNormalizedConfidenceScoreForAWS R input = F64.nan := by
  rw [aws_score_eq]
  simp [h, floatSum, F64.div, F64.ofNat, mathRound, R.rnd_zero]

/-! ## Runs of `doDocAnalysis` -/

theorem pure_run {α : Type} (a : α) : (pure a : Run α) = ([], Res.ok a) := rfl

theorem bind_run {α β : Type} (x : Run α) (f : α → Run β) : (x >>= f) = Run.bind x f := rfl

theorem bind_ok {α β : Type} (l : List Call) (a : α) (f : α → Run β) :
    Run.bind (l, Res.ok a) f = (l ++ (f a).1, (f a).2) := rfl

theorem wrapErr_ok {α : Type} (pfx : String) (l : List Call) (a : α) :
    wrapErr pfx ((l, Res.ok a) : Run α) = (l, Res.ok a) := rfl

theorem run_of_snd {α : Type} (x : Run α) (r : Res α) (h : x.2 = r) : x = (x.1, r) := by
  cases x
  simp_all

/-- A run that reaches the selection step returns the map chosen by `selectResult` on the two
decoded maps and the two normalized scores, after five exchanges. -/
theorem doDocAnalysis_of_reaches (sv : Services) (R : Rounding)
    (imageURL docType desiredFields : String) (result : OCRAnalysisResult)
    (resultfromaws : DetectTextOutput) (mA mB : GoMap)
    (h : ReachesSelection sv imageURL docType desiredFields result resultfromaws mA mB) :
    (doDocAnalysis sv R imageURL docType desiredFields).2
      = Res.ok (selectResult mA mB
          (fetchCombinedNormalizedConfidenceScoreForAzure R result.analyzeResult)
          (fetchCombinedNormalizedConfidenceScoreForAWS R resultfromaws)) := by
  obtain ⟨reqID, rawA, rawB, h1, h2, h3, h4, h5, h6, h7⟩ := h
  have e4 := run_of_snd _ _ h4
  have e5 := run_of_snd _ _ h5
  unfold doDocAnalysis
  simp only [bind_run, h1, h2, h3, exchange, localStep, wrapErr_ok, bind_ok, pure_run]
  rw [e4]
  simp only [wrapErr_ok, bind_ok]
  rw [e5]
  simp only [wrapErr_ok, bind_ok, h6, h7]

theorem sample_reaches (input : payload) (azure : AnalyzeResult) (aws : DetectTextOutput)
    (mA mB : GoMap) (imageURL docType desiredFields : String) :
    ReachesSelection (sampleServices input azure aws mA mB) imageURL docType desiredFields
      ⟨"succeeded", azure⟩ aws mA mB :=
  ⟨"request-1", "A", "B", rfl, rfl, rfl, rfl, rfl, rfl, rfl⟩

/-! ## Selection policy -/

theorem F64.gt_self (s : F64) : F64.gt s s = false := by
  cases s with
  | fin q => simp [F64.gt]
  | inf b => cases b <;> rfl
  | nan => rfl

theorem selectResult_azure_more (mA mB : GoMap) (sA sB : F64)
    (h : nonNullCount mB < nonNullCount mA) : selectResult mA mB sA sB = mA := by
  unfold selectResult
  simp only [gt_iff_lt, if_pos h]

theorem selectResult_aws_more (mA mB : GoMap) (sA sB : F64)
    (h : nonNullCount mA < nonNullCount mB) : selectResult mA mB sA sB = mB := by
  unfold selectResult
  simp only [gt_iff_lt, if_neg (Nat.lt_asymm h), if_pos h]

theorem selectResult_same_count (mA mB : GoMap) (sA sB : F64)
    (h : nonNullCount mA = nonNullCount mB) :
    selectResult mA mB sA sB = if F64.gt sA sB = true then mA else mB := by
  unfold selectResult
  simp only [gt_iff_lt, h, lt_irrefl, if_false]

/-- C1. When a run of `doDocAnalysis` reaches the selection step with decoded maps of
unequal non-absent counts, it returns the map with the strictly higher count: the Azure map
when it has more, the AWS map when that one has more. The scores play no part: the
selection gives the same map for every pair of scores. -/
theorem selection_unequal_counts (sv : Services) (R : Rounding)
    (imageURL docType desiredFields : String) (result : OCRAnalysisResult)
    (resultfromaws : DetectTextOutput) (mA mB : GoMap)
    (hrun : ReachesSelection sv imageURL docType desiredFields result resultfromaws mA mB) :
    (nonNullCount mB < nonNullCount mA →
      (doDocAnalysis sv R imageURL docType desiredFields).2 = Res.ok mA ∧
      ∀ sA sB : F64, selectResult mA mB sA sB = mA) ∧
    (nonNullCount mA < nonNullCount mB →
      (doDocAnalysis sv R imageURL docType desiredFields).2 = Res.ok mB ∧
      ∀ sA sB : F64, selectResult mA mB sA sB = mB) := by
  have hd := doDocAnalysis_of_reaches sv R imageURL docType desiredFields result resultfromaws
    mA mB hrun
  constructor
  · intro h
    exact ⟨by rw [hd, selectResult_azure_more mA mB _ _ h],
      fun sA sB => selectResult_azure_more mA mB sA sB h⟩
  · intro h
    exact ⟨by rw [hd, selectResult_aws_more mA mB _ _ h],
      fun sA sB => selectResult_aws_more mA mB sA sB h⟩

/-- C1 (witness). Azure map with 3 non-absent values and score 9, AWS map with 2 and score
10: the Azure map is returned. -/
theorem selection_unequal_counts_witness :
    ReachesSelection
        (sampleServices samplePanRequest sampleAnalyzeResult sampleDetections sampleMapFull
          sampleMapWithNil)
        "https://example.org/pan.jpg" "PAN" "" ⟨"succeeded", sampleAnalyzeResult⟩
        sampleDetections sampleMapFull sampleMapWithNil ∧
    nonNullCount sampleMapFull = 3 ∧ nonNullCount sampleMapWithNil = 2 ∧
    fetchCombinedNormalizedConfidenceScoreForAzure Rounding.exact sampleAnalyzeResult
      = F64.fin 9 ∧
    fetchCombinedNormalizedConfidenceScoreForAWS Rounding.exact sampleDetections
      = F64.fin 10 ∧
    (doDocAnalysis
        (sampleServices samplePanRequest sampleAnalyzeResult sampleDetections sampleMapFull
          sampleMapWithNil)
        Rounding.exact "https://example.org/pan.jpg" "PAN" "").2 = Res.ok sampleMapFull :=
  ⟨sample_reaches _ _ _ _ _ _ _ _, by decide, by decide,
    by
      rw [azure_score_eq]
      norm_num [AnalyzeResult.confidences, AnalyzeResult.allWords, sampleAnalyzeResult,
        floatSum, Rounding.exact_rnd, F64.div, F64.mul, F64.ofNat, mathRound, roundHalfAway],
    by
      have hw : sampleDetections.wordDetections
          = [⟨"INCOME", "WORD", 97⟩, ⟨"TAX", "WORD", 99⟩] := rfl
      rw [aws_score_eq, hw]
      norm_num [floatSum, Rounding.exact_rnd, F64.div, F64.ofNat, mathRound, roundHalfAway],
    ((selection_unequal_counts _ Rounding.exact _ _ _ _ _ _ _
      (sample_reaches _ _ _ _ _ _ _ _)).1 (by decide)).1⟩

/-- The scores that `doDocAnalysis` compares are never infinite: each normalizer returns a
finite value or NaN. -/
theorem scores_fin_or_nan (R : Rounding) (result : AnalyzeResult) (input : DetectTextOutput) :
    ((∃ a : ℚ, fetchCombinedNormalizedConfidenceScoreForAzure R result = F64.fin a) ∨
      fetchCombinedNormalizedConfidenceScoreForAzure R result = F64.nan) ∧
    ((∃ b : ℚ, fetchCombinedNormalizedConfidenceScoreForAWS R input = F64.fin b) ∨
      fetchCombinedNormalizedConfidenceScoreForAWS R input = F64.nan) := by
  constructor
  · rcases Nat.eq_zero_or_pos result.allWords.length with h | h
    · exact Or.inr (azure_score_zero R result (List.length_eq_zero.mp h))
    · exact Or.inl ⟨_, azure_score_pos R result h⟩
  · rcases Nat.eq_zero_or_pos input.wordDetections.length with h | h
    · exact Or.inr (aws_score_zero R input (List.length_eq_zero.mp h))
    · exact Or.inl ⟨_, aws_score_pos R input h⟩

/-- C2. When a run of `doDocAnalysis` reaches the selection step with decoded maps of equal
non-absent counts, the scores decide. For finite scores `a` (Azure) and `b` (AWS): the
Azure map is returned when `b < a`, the AWS map when `a ≤ b`, equal scores included; when a
score is NaN the AWS map is returned. This holds for the scores that the run computes
(each of them is finite or NaN) and, in the selection step, for every pair of scores (a
positive infinity beats every finite score); it is what Go's
`azureResultScore > awsResultScore` gives. Scenarios: 9 against 7 gives the Azure map,
7 against 9 and 5 against 5 give the AWS map. -/
theorem selection_equal_counts (sv : Services) (R : Rounding)
    (imageURL docType desiredFields : String) (result : OCRAnalysisResult)
    (resultfromaws : DetectTextOutput) (mA mB : GoMap)
    (hrun : ReachesSelection sv imageURL docType desiredFields result resultfromaws mA mB)
    (heq : nonNullCount mA = nonNullCount mB) :
    (∀ a b : ℚ,
      fetchCombinedNormalizedConfidenceScoreForAzure R result.analyzeResult = F64.fin a →
      fetchCombinedNormalizedConfidenceScoreForAWS R resultfromaws = F64.fin b →
      (b < a → (doDocAnalysis sv R imageURL docType desiredFields).2 = Res.ok mA) ∧
      (a ≤ b → (doDocAnalysis sv R imageURL docType desiredFields).2 = Res.ok mB)) ∧
    (fetchCombinedNormalizedConfidenceScoreForAzure R result.analyzeResult = F64.nan ∨
      fetchCombinedNormalizedConfidenceScoreForAWS R resultfromaws = F64.nan →
      (doDocAnalysis sv R imageURL docType desiredFields).2 = Res.ok mB) ∧
    (∀ a b : ℚ, b < a → selectResult mA mB (F64.fin a) (F64.fin b) = mA) ∧
    (∀ a b : ℚ, a ≤ b → selectResult mA mB (F64.fin a) (F64.fin b) = mB) ∧
    (∀ s : F64, selectResult mA mB F64.nan s = mB ∧ selectResult mA mB s F64.nan = mB) ∧
    (∀ b : ℚ, selectResult mA mB (F64.inf false) (F64.fin b) = mA) ∧
    (∀ s : F64, selectResult mA mB s s = mB) ∧
    selectResult mA mB (F64.fin 9) (F64.fin 7) = mA ∧
    selectResult mA mB (F64.fin 7) (F64.fin 9) = mB ∧
    selectResult mA mB (F64.fin 5) (F64.fin 5) = mB ∧
    (∀ sA sB : F64, selectResult mA mB sA sB = if F64.gt sA sB = true then mA else mB) ∧
    (doDocAnalysis sv R imageURL docType desiredFields).2
        = Res.ok (if F64.gt (fetchCombinedNormalizedConfidenceScoreForAzure R
                      result.analyzeResult)
                    (fetchCombinedNormalizedConfidenceScoreForAWS R resultfromaws) = true
                  then mA else mB) := by
  have hd := doDocAnalysis_of_reaches sv R imageURL docType desiredFields result resultfromaws
    mA mB hrun
  have hsel := selectResult_same_count mA mB
  have hgt : ∀ a b : ℚ, b < a → selectResult mA mB (F64.fin a) (F64.fin b) = mA := by
    intro a b hab
    rw [hsel _ _ heq]
    simp [F64.gt, hab]
  have hle : ∀ a b : ℚ, a ≤ b → selectResult mA mB (F64.fin a) (F64.fin b) = mB := by
    intro a b hab
    rw [hsel _ _ heq]
    simp [F64.gt, not_lt.mpr hab]
  have hnanl : ∀ s : F64, selectResult mA mB F64.nan s = mB := by
    intro s
    rw [hsel _ _ heq]
    simp [F64.gt]
  have hnanr : ∀ s : F64, selectResult mA mB s F64.nan = mB := by
    intro s
    rw [hsel _ _ heq]
    cases s <;> simp [F64.gt]
  refine ⟨?_, ?_, hgt, hle, fun s => ⟨hnanl s, hnanr s⟩, ?_, ?_, hgt 9 7 (by norm_num),
    hle 7 9 (by norm_num), hle 5 5 le_rfl, fun sA sB => hsel sA sB heq, ?_⟩
  · intro a b ha hb
    rw [hd, ha, hb]
    exact ⟨fun h => by rw [hgt a b h], fun h => by rw [hle a b h]⟩
  · intro h
    rw [hd]
    rcases h with h | h
    · rw [h]; exact congrArg Res.ok (hnanl _)
    · rw [h]; exact congrArg Res.ok (hnanr _)
  · intro b
    rw [hsel _ _ heq]
    simp [F64.gt]
  · intro s
    rw [hsel _ _ heq, F64.gt_self]
    simp
  · rw [hd, hsel _ _ heq]

/-! ## Request handler -/

theorem bind_fst {α β : Type} (x : Run α) (f : α → Run β) :
    ∃ rest, (Run.bind x f).1 = x.1 ++ rest := by
  rcases x with ⟨l, r⟩
  cases r with
  | ok a => exact ⟨(f a).1, rfl⟩
  | error e => exact ⟨[], by simp [Run.bind]⟩
  | panic e => exact ⟨[], by simp [Run.bind]⟩

theorem wrapErr_fst {α : Type} (pfx : String) (x : Run α) : (wrapErr pfx x).1 = x.1 := by
  rcases x with ⟨l, r⟩
  cases r <;> rfl

theorem exchange_fst {α : Type} (c : Call) (r : Except String α) : (exchange c r).1 = [c] := by
  cases r <;> rfl

/-- Every run of `doDocAnalysis` starts with the submission to the layout-aware provider. -/
theorem doDocAnalysis_first_call (sv : Services) (R : Rounding)
    (imageURL docType desiredFields : String) :
    ∃ rest, (doDocAnalysis sv R imageURL docType desiredFields).1
      = Call.submitOCRAnalysis imageURL :: rest := by
  unfold doDocAnalysis
  rw [bind_run]
  obtain ⟨rest, h⟩ := bind_fst
    (wrapErr "failed to submit ocr analysis: "
      (exchange (Call.submitOCRAnalysis imageURL) (sv.submitOCRAnalysis imageURL))) _
  exact ⟨rest, by rw [h, wrapErr_fst, exchange_fst]; rfl⟩

/-- A non-empty `docType` whose upper case is none of the three constants falls through the
`switch`: the success response is built from the nil map and no exchange is made. -/
theorem HandleRequest_unrecognized (sv : Services) (R : Rounding) (reqBody : String)
    (input : payload) (hdec : sv.jsonUnmarshalPayload reqBody = Except.ok input)
    (hne : input.docType ≠ "") (hpan : toUpper input.docType ≠ panDoc)
    (haadhar : toUpper input.docType ≠ aadharDoc)
    (hunknown : toUpper input.docType ≠ unknownDoc) :
    HandleRequest sv R reqBody = ([], Res.ok (buildSuccessResponse none)) := by
  unfold HandleRequest
  simp only [hdec, if_neg hne, if_neg hpan, if_neg haadhar, if_neg hunknown]
  rfl

/-- C3 (evaluation at the failing inputs). For `docType = "passport"` with
`outputFields = "name"`, and for the spelling `docType = "aadhaar"`, `HandleRequest`
answers status 200 with the encoding of the nil map (`null`) and makes no exchange with any
provider: the request is not handled as an UNKNOWN job and no analysis runs. -/
theorem unrecognized_docType_gets_null_success (R : Rounding) :
    HandleRequest
        (sampleServices { samplePanRequest with docType := "passport", outputFields := "name" }
          sampleAnalyzeResult sampleDetections sampleMapFull sampleMapOther) R
        "\x7b\"docType\":\"passport\",\"frontUrl\":\"https://example.org/pan.jpg\",\"outputFields\":\"name\"\x7d"
      = ([], Res.ok { statusCode := 200, headers := [("Content-Type", "application/json")],
                      body := none, isBase64Encoded := false }) ∧
    HandleRequest
        (sampleServices { samplePanRequest with docType := "aadhaar" }
          sampleAnalyzeResult sampleDetections sampleMapFull sampleMapOther) R
        "\x7b\"docType\":\"aadhaar\",\"frontUrl\":\"https://example.org/pan.jpg\"\x7d"
      = ([], Res.ok { statusCode := 200, headers := [("Content-Type", "application/json")],
                      body := none, isBase64Encoded := false }) := by
  constructor
  · exact HandleRequest_unrecognized _ R _ _ rfl (by decide) (by decide) (by decide) (by decide)
  · exact HandleRequest_unrecognized _ R _ _ rfl (by decide) (by decide) (by decide) (by decide)

/-- C4. For a request body that decodes to a payload with `docType = ""` and
`outputFields = ""` (any `frontUrl`), `HandleRequest` returns the error response (status
500, body the JSON object with the single key `error`) and makes no exchange with any
service; `doDocAnalysis` is not run, since each of its runs makes at least one exchange. -/
theorem empty_docType_without_outputFields_rejected (sv : Services) (R : Rounding)
    (reqBody : String) (input : payload)
    (hdec : sv.jsonUnmarshalPayload reqBody = Except.ok input)
    (hdt : input.docType = "") (hof : input.outputFields = "") :
    HandleRequest sv R reqBody
      = ([], Res.ok
          { statusCode := 500, headers := [("Content-Type", "application/json")],
            body := some [("error",
              JVal.str "for empty docType provide a desired output JSON in OutputJSON")],
            isBase64Encoded := false }) ∧
    ∀ imageURL docType desiredFields : String,
      (doDocAnalysis sv R imageURL docType desiredFields).1 ≠ [] := by
  constructor
  · unfold HandleRequest
    simp only [hdec, hdt, hof, if_true]
    rfl
  · intro imageURL docType desiredFields
    obtain ⟨rest, h⟩ := doDocAnalysis_first_call sv R imageURL docType desiredFields
    rw [h]
    exact List.cons_ne_nil _ _

/-- C4 (witness). A request with empty `docType` and empty `outputFields`. -/
theorem empty_docType_without_outputFields_rejected_witness :
    (sampleServices { samplePanRequest with docType := "" }
        sampleAnalyzeResult sampleDetections sampleMapFull sampleMapOther).jsonUnmarshalPayload
        "\x7b\"docType\":\"\",\"frontUrl\":\"https://example.org/pan.jpg\",\"outputFields\":\"\"\x7d"
      = Except.ok { samplePanRequest with docType := "" } ∧
    HandleRequest
        (sampleServices { samplePanRequest with docType := "" }
          sampleAnalyzeResult sampleDetections sampleMapFull sampleMapOther) Rounding.exact
        "\x7b\"docType\":\"\",\"frontUrl\":\"https://example.org/pan.jpg\",\"outputFields\":\"\"\x7d"
      = ([], Res.ok
          { statusCode := 500, headers := [("Content-Type", "application/json")],
            body := some [("error",
              JVal.str "for empty docType provide a desired output JSON in OutputJSON")],
            isBase64Encoded := false }) :=
  ⟨rfl, (empty_docType_without_outputFields_rejected _ Rounding.exact _ _ rfl rfl rfl).1⟩

/-! ## Zero qualifying samples -/

theorem F64.gt_nan (s : F64) : F64.gt s F64.nan = false := by
  cases s <;> rfl

/-- C5 (evaluation at the failing inputs). On a text-detection output with only a `LINE`
detection, and on a layout-aware result whose only page has no word, the normalizers return
NaN (`0.0 / float64(0)`) and no error; `doDocAnalysis` then goes on and returns a field map
(here the AWS map, as `x > NaN` is false), so the job does not fail. -/
theorem zero_samples_score_nan_job_succeeds (R : Rounding) :
    fetchCombinedNormalizedConfidenceScoreForAWS R lineOnlyDetections = F64.nan ∧
    fetchCombinedNormalizedConfidenceScoreForAzure R
        { sampleAnalyzeResult with
          pages := [{ pageNumber := 1, unit := "pixel", words := [], kind := "document" }] }
      = F64.nan ∧
    (doDocAnalysis
        (sampleServices samplePanRequest sampleAnalyzeResult lineOnlyDetections sampleMapFull
          sampleMapOther)
        R "https://example.org/pan.jpg" "PAN" "").2 = Res.ok sampleMapOther := by
  have haws : fetchCombinedNormalizedConfidenceScoreForAWS R lineOnlyDetections = F64.nan :=
    aws_score_zero R lineOnlyDetections rfl
  refine ⟨haws, azure_score_zero R _ rfl, ?_⟩
  rw [doDocAnalysis_of_reaches _ R _ _ _ _ _ _ _ (sample_reaches _ _ _ _ _ _ _ _),
    selectResult_same_count _ _ _ _ (by decide), haws, F64.gt_nan]
  simp

/-! ## Evaluating the binary64 rounding -/

theorem Rounding.binary64_rnd (x : ℚ) : Rounding.binary64.rnd x = roundNearestEven x := rfl

theorem roundHalfEven_error (t : ℚ) : |(roundHalfEven t : ℚ) - t| ≤ 1 / 2 := by
  have h1 := Int.floor_le t
  have h2 := Int.lt_floor_add_one t
  unfold roundHalfEven
  rw [abs_le]
  split_ifs with ha hb hc <;> push_cast <;> constructor <;> linarith

/-- Rounding a value of `[0, B]`, `B ≥ 1`, to binary64 moves it by at most `B / 2 ^ 53`. -/
theorem roundNearestEven_error {x B : ℚ} (h0 : 0 ≤ x) (hB : x ≤ B) (h1 : 1 ≤ B) :
    |roundNearestEven x - x| ≤ B / 2 ^ 53 := by
  unfold roundNearestEven roundNearestEvenNonneg
  rw [if_pos h0]
  split_ifs with hx
  · rw [hx]
    simp only [sub_zero, abs_zero]
    positivity
  · have hpos : 0 < x := lt_of_le_of_ne h0 (Ne.symm hx)
    have hp : (0 : ℚ) < 2 ^ ulpExponent x := zpow_pos (by norm_num) _
    have he := roundHalfEven_error (x / 2 ^ ulpExponent x)
    have heq : (roundHalfEven (x / 2 ^ ulpExponent x) : ℚ) * 2 ^ ulpExponent x - x
        = ((roundHalfEven (x / 2 ^ ulpExponent x) : ℚ) - x / 2 ^ ulpExponent x)
            * 2 ^ ulpExponent x := by
      field_simp
    rw [heq, abs_mul, abs_of_pos hp]
    have hstep : |(roundHalfEven (x / 2 ^ ulpExponent x) : ℚ) - x / 2 ^ ulpExponent x|
        * 2 ^ ulpExponent x ≤ 1 / 2 * 2 ^ ulpExponent x :=
      mul_le_mul_of_nonneg_right he (le_of_lt hp)
    refine le_trans hstep ?_
    have hulp : (2 : ℚ) ^ ulpExponent x ≤ B / 2 ^ 52 := by
      unfold ulpExponent
      rcases max_cases (Int.log 2 x - 52) (-1074) with ⟨h, _⟩ | ⟨h, _⟩
      · rw [h, zpow_sub₀ (by norm_num)]
        have hlog : (2 : ℚ) ^ Int.log 2 x ≤ x := by
          simpa using Int.zpow_log_le_self (b := 2) (by norm_num) hpos
        have : (2 : ℚ) ^ (52 : ℤ) = 2 ^ 52 := by norm_cast
        rw [this]
        exact div_le_div_of_nonneg_right (le_trans hlog hB) (by positivity)
      · rw [h]
        have : (2 : ℚ) ^ (-1074 : ℤ) ≤ 1 / 2 ^ 52 := by
          have h52 : (2 : ℚ) ^ (-52 : ℤ) = 1 / 2 ^ 52 := by
            rw [zpow_neg, one_div]
            norm_cast
          rw [← h52]
          exact zpow_le_zpow_right₀ (by norm_num) (by norm_num)
        refine le_trans this ?_
        exact div_le_div_of_nonneg_right h1 (by positivity)
    calc 1 / 2 * (2 : ℚ) ^ ulpExponent x ≤ 1 / 2 * (B / 2 ^ 52) :=
          mul_le_mul_of_nonneg_left hulp (by norm_num)
      _ = B / 2 ^ 53 := by ring

/-- Error of a float sum of `l.length` terms of `[0, C]` after `k` earlier terms. -/
theorem floatSum_error (C : ℕ) (hC : 1 ≤ C) (l : List ℚ) (k : ℕ) (s s' : ℚ)
    (hex : C * (k + l.length) ≤ 2 ^ 53)
    (hl : ∀ c ∈ l, 0 ≤ c ∧ c ≤ (C : ℚ)) (hs0 : 0 ≤ s) (hs : s ≤ (C : ℚ) * (k : ℚ))
    (herr : |s - s'| ≤ (C : ℚ) * ((k : ℚ) * ((k : ℚ) + 1) / 2) / 2 ^ 53) :
    |floatSum Rounding.binary64 s l - (s' + l.sum)|
      ≤ (C : ℚ) * (((k + l.length : ℕ) : ℚ) * (((k + l.length : ℕ) : ℚ) + 1) / 2) / 2 ^ 53 := by
  induction l generalizing k s s' with
  | nil => simpa [floatSum] using herr
  | cons c cs ih =>
    rw [floatSum_cons, List.sum_cons]
    have hc := hl c (List.mem_cons_self _ _)
    have hlen : k + (c :: cs).length = (k + 1) + cs.length := by simp; omega
    have hC1 : (1 : ℚ) ≤ (C : ℚ) := by exact_mod_cast hC
    have hk0 : (0 : ℚ) ≤ (k : ℚ) := Nat.cast_nonneg k
    have hsum0 : 0 ≤ s + c := by linarith [hc.1]
    have hsumB : s + c ≤ (C : ℚ) * ((k : ℚ) + 1) := by nlinarith [hc.2]
    have hB1 : (1 : ℚ) ≤ (C : ℚ) * ((k : ℚ) + 1) := by nlinarith
    have h0 : 0 ≤ Rounding.binary64.rnd (s + c) := by
      have := Rounding.binary64.mono hsum0
      rwa [Rounding.binary64.rnd_zero] at this
    have h1 : Rounding.binary64.rnd (s + c) ≤ (C : ℚ) * ((k + 1 : ℕ) : ℚ) := by
      have hle : s + c ≤ ((C * (k + 1) : ℕ) : ℚ) := by push_cast; exact hsumB
      have := Rounding.binary64.mono hle
      rw [Rounding.binary64.nat_exact (C * (k + 1))
        (le_trans (Nat.mul_le_mul_left C (by omega)) (hlen ▸ hex))] at this
      simpa using this
    have hround := roundNearestEven_error hsum0 hsumB hB1
    have herr' : |Rounding.binary64.rnd (s + c) - (s' + c)|
        ≤ (C : ℚ) * (((k + 1 : ℕ) : ℚ) * (((k + 1 : ℕ) : ℚ) + 1) / 2) / 2 ^ 53 := by
      have htri : |Rounding.binary64.rnd (s + c) - (s' + c)|
          ≤ |roundNearestEven (s + c) - (s + c)| + |s - s'| := by
        have : Rounding.binary64.rnd (s + c) - (s' + c)
            = (roundNearestEven (s + c) - (s + c)) + (s - s') := by
          rw [Rounding.binary64_rnd]; ring
        rw [this]
        exact abs_add _ _
      refine le_trans htri (le_trans (add_le_add hround herr) ?_)
      push_cast
      apply le_of_eq
      ring
    have := ih (k + 1) (Rounding.binary64.rnd (s + c)) (s' + c) (hlen ▸ hex)
      (fun x hx => hl x (List.mem_cons_of_mem _ hx)) h0 h1 herr'
    rw [hlen]
    rw [show s' + (c + cs.sum) = s' + c + cs.sum by ring]
    exact this

theorem roundHalfAway_of_near {x E d : ℚ} {k : ℤ} (hx : 0 ≤ x) (hd : |x - E| ≤ d)
    (h1 : (k : ℚ) - 1 / 2 + d ≤ E) (h2 : E + d < (k : ℚ) + 1 / 2) : roundHalfAway x = k := by
  rw [abs_le] at hd
  unfold roundHalfAway
  rw [if_pos hx, Int.floor_eq_iff]
  constructor <;> linarith [hd.1, hd.2]

/-- For word confidences in `[0, 1]`, the float64 value that the layout-aware normalizer
rounds is non-negative and within `(5 n + 25) / 2 ^ 53` of the exact `10 * sum / n`. -/
theorem azure_value_accuracy (result : AnalyzeResult) (hpos : 0 < result.allWords.length)
    (hn : result.allWords.length ≤ 2 ^ 53)
    (hw : ∀ w ∈ result.allWords, 0 ≤ w.confidence ∧ w.confidence ≤ 1) :
    0 ≤ azureScaledMean Rounding.binary64 result ∧
    |azureScaledMean Rounding.binary64 result
        - 10 * result.confidences.sum / (result.allWords.length : ℚ)|
      ≤ (5 * (result.allWords.length : ℚ) + 25) / 2 ^ 53 := by
  have hlen : result.confidences.length = result.allWords.length := by
    simp [AnalyzeResult.confidences]
  have hc : ∀ c ∈ result.confidences, 0 ≤ c ∧ c ≤ ((1 : ℕ) : ℚ) := by
    intro c hc
    simp only [AnalyzeResult.confidences, List.mem_map] at hc
    obtain ⟨w, hwm, rfl⟩ := hc
    simpa using hw w hwm
  have hb := floatSum_bounds Rounding.binary64 1 result.confidences 0 0
    (fun m hm => Rounding.binary64.nat_exact m (by rw [hlen] at hm; omega)) hc le_rfl (by simp)
  have he := floatSum_error 1 le_rfl result.confidences 0 0 0 (by rw [hlen]; omega) hc le_rfl
    (by simp) (by simp)
  simp only [Nat.cast_one, one_mul, zero_add, hlen, Nat.cast_zero] at hb he
  have hN : Rounding.binary64.rnd (result.allWords.length : ℚ) = (result.allWords.length : ℚ) :=
    Rounding.binary64.nat_exact _ hn
  have hnpos : (0 : ℚ) < (result.allWords.length : ℚ) := by exact_mod_cast hpos
  unfold azureScaledMean
  rw [hN]
  generalize floatSum Rounding.binary64 0 result.confidences = S at hb he ⊢
  generalize result.confidences.sum = T at he ⊢
  generalize (result.allWords.length : ℚ) = n at hb he hnpos ⊢
  -- the quotient
  have hd0 : 0 ≤ S / n := div_nonneg hb.1 (le_of_lt hnpos)
  have hd1 : S / n ≤ 1 := (div_le_one hnpos).mpr hb.2
  have hq := roundNearestEven_error hd0 hd1 le_rfl
  have hq0 : 0 ≤ Rounding.binary64.rnd (S / n) := by
    have := Rounding.binary64.mono hd0
    rwa [Rounding.binary64.rnd_zero] at this
  have hq1 : Rounding.binary64.rnd (S / n) ≤ 1 := by
    have := Rounding.binary64.mono hd1
    rwa [Rounding.binary64.rnd_one] at this
  -- the product
  have hm0 : 0 ≤ Rounding.binary64.rnd (S / n) * 10 := by positivity
  have hm1 : Rounding.binary64.rnd (S / n) * 10 ≤ 10 := by linarith
  have hx := roundNearestEven_error hm0 hm1 (by norm_num)
  have hx0 : 0 ≤ Rounding.binary64.rnd (Rounding.binary64.rnd (S / n) * 10) := by
    have := Rounding.binary64.mono hm0
    rwa [Rounding.binary64.rnd_zero] at this
  refine ⟨hx0, ?_⟩
  -- the error of the sum, divided by n
  have hdiv : |S / n - T / n| ≤ ((n + 1) / 2) / 2 ^ 53 := by
    have : S / n - T / n = (S - T) / n := by ring
    rw [this, abs_div, abs_of_pos hnpos, div_le_iff₀ hnpos]
    refine le_trans he (le_of_eq ?_)
    field_simp
    ring
  simp only [Rounding.binary64_rnd] at hq hx ⊢
  rw [abs_le] at hq hx hdiv ⊢
  have e10 : 10 * T / n = 10 * (T / n) := by ring
  rw [e10]
  constructor
  · have : (5 * n + 25) / 2 ^ 53 = 10 / 2 ^ 53 + 10 * (1 / 2 ^ 53 + ((n + 1) / 2) / 2 ^ 53) := by
      ring
    rw [this]
    linarith [hq.1, hx.1, hdiv.1]
  · have : (5 * n + 25) / 2 ^ 53 = 10 / 2 ^ 53 + 10 * (1 / 2 ^ 53 + ((n + 1) / 2) / 2 ^ 53) := by
      ring
    rw [this]
    linarith [hq.2, hx.2, hdiv.2]

theorem scaled_terms_error (ws : List TextDetection)
    (h : ∀ t ∈ ws, 0 ≤ t.confidence ∧ t.confidence ≤ 100) :
    |(ws.map (fun t => Rounding.binary64.rnd (t.confidence / 10))).sum
        - (ws.map (fun t => t.confidence / 10)).sum|
      ≤ (ws.length : ℚ) * (10 / 2 ^ 53) := by
  induction ws with
  | nil => simp
  | cons t ts ih =>
    have ht := h t (List.mem_cons_self _ _)
    have h1 := roundNearestEven_error (show (0 : ℚ) ≤ t.confidence / 10 by linarith [ht.1])
      (show t.confidence / 10 ≤ 10 by linarith [ht.2]) (by norm_num)
    have h2 := ih (fun x hx => h x (List.mem_cons_of_mem _ hx))
    simp only [List.map_cons, List.sum_cons, List.length_cons, Rounding.binary64_rnd] at h2 ⊢
    rw [abs_le] at h1 h2 ⊢
    push_cast
    constructor <;> linarith [h1.1, h1.2, h2.1, h2.2]

/-- For `WORD` confidences in `[0, 100]`, the float64 value that the text-detection
normalizer rounds is non-negative and within `(5 n + 25) / 2 ^ 53` of the exact mean of the
confidences divided by 10. -/
theorem aws_value_accuracy (input : DetectTextOutput) (hpos : 0 < input.wordDetections.length)
    (hn : 10 * input.wordDetections.length ≤ 2 ^ 53)
    (hw : ∀ t ∈ input.wordDetections, 0 ≤ t.confidence ∧ t.confidence ≤ 100) :
    0 ≤ awsScaledMean Rounding.binary64 input ∧
    |awsScaledMean Rounding.binary64 input
        - (input.wordDetections.map (fun t => t.confidence / 10)).sum
            / (input.wordDetections.length : ℚ)|
      ≤ (5 * (input.wordDetections.length : ℚ) + 25) / 2 ^ 53 := by
  have hc : ∀ c ∈ input.wordDetections.map (fun t => Rounding.binary64.rnd (t.confidence / 10)),
      0 ≤ c ∧ c ≤ ((10 : ℕ) : ℚ) := by
    intro c hc
    simp only [List.mem_map] at hc
    obtain ⟨t, htm, rfl⟩ := hc
    have h := hw t htm
    have h0 := Rounding.binary64.mono (show (0 : ℚ) ≤ t.confidence / 10 by linarith [h.1])
    have h1 := Rounding.binary64.mono (show t.confidence / 10 ≤ 10 by linarith [h.2])
    rw [Rounding.binary64.rnd_zero] at h0
    rw [Rounding.binary64.rnd_ten] at h1
    exact ⟨h0, by simpa using h1⟩
  have ht := scaled_terms_error input.wordDetections hw
  have hlenL : (input.wordDetections.map
      (fun t => Rounding.binary64.rnd (t.confidence / 10))).length
        = input.wordDetections.length := List.length_map _ _
  have hN : Rounding.binary64.rnd (input.wordDetections.length : ℚ)
      = (input.wordDetections.length : ℚ) := Rounding.binary64.nat_exact _ (by omega)
  have hnpos : (0 : ℚ) < (input.wordDetections.length : ℚ) := by exact_mod_cast hpos
  unfold awsScaledMean
  rw [hN]
  generalize input.wordDetections.map
    (fun t => Rounding.binary64.rnd (t.confidence / 10)) = L at hc ht hlenL ⊢
  have hb := floatSum_bounds Rounding.binary64 10 L 0 0
    (fun m hm => Rounding.binary64.nat_exact m (by rw [hlenL] at hm; omega)) hc
    le_rfl (by simp)
  have he := floatSum_error 10 (by norm_num) L 0 0 0
    (by rw [hlenL]; omega) hc le_rfl (by simp) (by simp)
  simp only [zero_add, hlenL, Nat.cast_zero, Nat.cast_ofNat] at hb he
  generalize floatSum Rounding.binary64 0 L = S at hb he ⊢
  generalize L.sum = U at he ht
  generalize (input.wordDetections.map (fun t => t.confidence / 10)).sum = T at ht ⊢
  generalize (input.wordDetections.length : ℚ) = n at hb he ht hnpos ⊢
  have hd0 : 0 ≤ S / n := div_nonneg hb.1 (le_of_lt hnpos)
  have hd1 : S / n ≤ 10 := by
    rw [div_le_iff₀ hnpos]
    exact hb.2
  have hx := roundNearestEven_error hd0 hd1 (by norm_num)
  have hx0 : 0 ≤ Rounding.binary64.rnd (S / n) := by
    have := Rounding.binary64.mono hd0
    rwa [Rounding.binary64.rnd_zero] at this
  refine ⟨hx0, ?_⟩
  have hST : |S - T| ≤ n * (5 * (n + 1) / 2 ^ 53 + 10 / 2 ^ 53) := by
    have : S - T = (S - U) + (U - T) := by ring
    rw [this]
    refine le_trans (abs_add _ _) (le_trans (add_le_add he ht) (le_of_eq ?_))
    ring
  have hdiv : |S / n - T / n| ≤ 5 * (n + 1) / 2 ^ 53 + 10 / 2 ^ 53 := by
    have : S / n - T / n = (S - T) / n := by ring
    rw [this, abs_div, abs_of_pos hnpos, div_le_iff₀ hnpos]
    refine le_trans hST (le_of_eq ?_)
    ring
  simp only [Rounding.binary64_rnd] at hx ⊢
  rw [abs_le] at hx hdiv ⊢
  have : (5 * n + 25) / 2 ^ 53 = 10 / 2 ^ 53 + (5 * (n + 1) / 2 ^ 53 + 10 / 2 ^ 53) := by ring
  rw [this]
  constructor <;> linarith [hx.1, hx.2, hdiv.1, hdiv.2]

/-! ## Float64 results that differ from the exact formula -/

theorem F64.le_fin_iff (a b : ℚ) : F64.le (F64.fin a) (F64.fin b) = true ↔ a ≤ b := by
  simp [F64.le]

theorem exact_or_small (R : Rounding) (N : ℕ) (h : R = Rounding.exact ∨ N ≤ 2 ^ 53) :
    ∀ m : ℕ, m ≤ N → R.rnd (m : ℚ) = (m : ℚ) := by
  intro m hm
  rcases h with h | h
  · subst h
    rfl
  · exact R.nat_exact m (le_trans hm h)

theorem allWords_split (result : AnalyzeResult) (p : Page) (ps₁ ps₂ : List Page)
    (ws₁ ws₂ : List Word) (w : Word) :
    AnalyzeResult.confidences
        { result with pages := ps₁ ++ { p with words := ws₁ ++ w :: ws₂ } :: ps₂ }
      = ((ps₁.flatMap (fun p => p.words)) ++ ws₁).map (fun w => w.confidence)
          ++ w.confidence :: (ws₂ ++ ps₂.flatMap (fun p => p.words)).map (fun w => w.confidence)
      ∧
    (AnalyzeResult.allWords
        { result with pages := ps₁ ++ { p with words := ws₁ ++ w :: ws₂ } :: ps₂ }).length
      = (ps₁.flatMap (fun p => p.words)).length + ws₁.length + 1 + ws₂.length
          + (ps₂.flatMap (fun p => p.words)).length := by
  constructor
  · simp [AnalyzeResult.confidences, AnalyzeResult.allWords, List.flatMap_append]
  · simp [AnalyzeResult.allWords, List.flatMap_append]
    omega

theorem wordDetections_split (pre post : List TextDetection) (t : TextDetection)
    (ht : t.type = "WORD") :
    DetectTextOutput.wordDetections ⟨pre ++ t :: post⟩
      = DetectTextOutput.wordDetections ⟨pre⟩ ++ t :: DetectTextOutput.wordDetections ⟨post⟩ := by
  simp [DetectTextOutput.wordDetections, List.filter_append, List.filter_cons, ht]

/-- C8. Raising the confidence of one qualifying word, everything else unchanged, never
lowers the score, for both normalizers and every rounding of the float format: the score
before is `<=` the score after (so neither is NaN). The word is any word `w` of any page of
a layout-aware result, and any `WORD` detection `t` of a text-detection output. -/
theorem normalizers_monotone (R : Rounding) :
    (∀ (result : AnalyzeResult) (p : Page) (ps₁ ps₂ : List Page) (ws₁ ws₂ : List Word)
        (w : Word) (c : ℚ), w.confidence ≤ c →
        F64.le
          (fetchCombinedNormalizedConfidenceScoreForAzure R
            { result with pages := ps₁ ++ { p with words := ws₁ ++ w :: ws₂ } :: ps₂ })
          (fetchCombinedNormalizedConfidenceScoreForAzure R
            { result with pages :=
                ps₁ ++ { p with words := ws₁ ++ { w with confidence := c } :: ws₂ } :: ps₂ })
          = true) ∧
    (∀ (pre post : List TextDetection) (t : TextDetection) (c : ℚ),
        t.type = "WORD" → t.confidence ≤ c →
        F64.le
          (fetchCombinedNormalizedConfidenceScoreForAWS R ⟨pre ++ t :: post⟩)
          (fetchCombinedNormalizedConfidenceScoreForAWS R
            ⟨pre ++ { t with confidence := c } :: post⟩)
          = true) := by
  constructor
  · intro result p ps₁ ps₂ ws₁ ws₂ w c hc
    obtain ⟨hc1, hn1⟩ := allWords_split result p ps₁ ps₂ ws₁ ws₂ w
    obtain ⟨hc2, hn2⟩ := allWords_split result p ps₁ ps₂ ws₁ ws₂ { w with confidence := c }
    have hpos1 : 0 < (AnalyzeResult.allWords
        { result with pages := ps₁ ++ { p with words := ws₁ ++ w :: ws₂ } :: ps₂ }).length := by
      rw [hn1]; omega
    have hpos2 : 0 < (AnalyzeResult.allWords
        { result with pages :=
            ps₁ ++ { p with words := ws₁ ++ { w with confidence := c } :: ws₂ } :: ps₂ }).length := by
      rw [hn2]; omega
    rw [azure_score_pos R _ hpos1, azure_score_pos R _ hpos2, F64.le_fin_iff, hc1, hc2, hn2,
      ← hn1]
    have hd := R.rnd_nat_pos hpos1
    have hs := floatSum_mono_elem R 0
      (((ps₁.flatMap (fun p => p.words)) ++ ws₁).map (fun w => w.confidence))
      ((ws₂ ++ ps₂.flatMap (fun p => p.words)).map (fun w => w.confidence)) hc
    have h1 := R.mono (div_le_div_of_nonneg_right hs (le_of_lt hd))
    have h2 := R.mono (mul_le_mul_of_nonneg_right h1 (by norm_num : (0 : ℚ) ≤ 10))
    exact_mod_cast roundHalfAway_mono h2
  · intro pre post t c ht hc
    have hw1 := wordDetections_split pre post t ht
    have hw2 := wordDetections_split pre post { t with confidence := c } ht
    have hlen : (DetectTextOutput.wordDetections
          ⟨pre ++ { t with confidence := c } :: post⟩).length
        = (DetectTextOutput.wordDetections ⟨pre ++ t :: post⟩).length := by
      rw [hw1, hw2]; simp
    have hpos1 : 0 < (DetectTextOutput.wordDetections ⟨pre ++ t :: post⟩).length := by
      rw [hw1]; simp
    have hpos2 : 0 < (DetectTextOutput.wordDetections
          ⟨pre ++ { t with confidence := c } :: post⟩).length := by
      rw [hlen]; exact hpos1
    rw [aws_score_pos R _ hpos1, aws_score_pos R _ hpos2, F64.le_fin_iff, hlen, hw1, hw2]
    simp only [List.map_append, List.map_cons]
    have hd := R.rnd_nat_pos hpos1
    rw [hw1] at hd
    have ht10 : R.rnd (t.confidence / 10) ≤ R.rnd (c / 10) :=
      R.mono (div_le_div_of_nonneg_right hc (by norm_num))
    have hs := floatSum_mono_elem R 0
      ((DetectTextOutput.wordDetections ⟨pre⟩).map (fun t => R.rnd (t.confidence / 10)))
      ((DetectTextOutput.wordDetections ⟨post⟩).map (fun t => R.rnd (t.confidence / 10))) ht10
    have h1 := R.mono (div_le_div_of_nonneg_right hs (le_of_lt hd))
    exact_mod_cast roundHalfAway_mono h1

/-- C9. With at least one qualifying word and every qualifying confidence in its nominal
range (`[0, 1]` for the words of a layout-aware result, `[0, 100]` for `WORD` detections),
each normalizer returns a finite integer value between 0 and 10. This holds in exact
arithmetic for every input, and for every rounding of the float format as long as the sum
bound (`n` words, resp. `10 * n`) stays among the exactly represented naturals. -/
theorem score_is_integer_in_range (R : Rounding) :
    (∀ result : AnalyzeResult, 0 < result.allWords.length →
        (R = Rounding.exact ∨ result.allWords.length ≤ 2 ^ 53) →
        (∀ w ∈ result.allWords, 0 ≤ w.confidence ∧ w.confidence ≤ 1) →
        ∃ k : ℤ, fetchCombinedNormalizedConfidenceScoreForAzure R result = F64.fin (k : ℚ)
          ∧ 0 ≤ k ∧ k ≤ 10) ∧
    (∀ input : DetectTextOutput, 0 < input.wordDetections.length →
        (R = Rounding.exact ∨ 10 * input.wordDetections.length ≤ 2 ^ 53) →
        (∀ t ∈ input.wordDetections, 0 ≤ t.confidence ∧ t.confidence ≤ 100) →
        ∃ k : ℤ, fetchCombinedNormalizedConfidenceScoreForAWS R input = F64.fin (k : ℚ)
          ∧ 0 ≤ k ∧ k ≤ 10) := by
  constructor
  · intro result hpos hR hw
    have hex := exact_or_small R result.allWords.length hR
    have hb := floatSum_bounds R 1 result.confidences 0 0
      (by
        intro m hm
        apply hex
        simpa [AnalyzeResult.confidences] using hm)
      (by
        intro c hc
        simp only [AnalyzeResult.confidences, List.mem_map] at hc
        obtain ⟨w, hwm, rfl⟩ := hc
        simpa using hw w hwm)
      le_rfl (by simp)
    have hlen : result.confidences.length = result.allWords.length := by
      simp [AnalyzeResult.confidences]
    simp only [Nat.cast_one, one_mul, zero_add, hlen] at hb
    have hn : R.rnd (result.allWords.length : ℚ) = (result.allWords.length : ℚ) :=
      hex _ le_rfl
    have hnpos : (0 : ℚ) < (result.allWords.length : ℚ) := by exact_mod_cast hpos
    have hq0 : 0 ≤ floatSum R 0 result.confidences / (result.allWords.length : ℚ) :=
      div_nonneg hb.1 (le_of_lt hnpos)
    have hq1 : floatSum R 0 result.confidences / (result.allWords.length : ℚ) ≤ 1 :=
      (div_le_one hnpos).mpr hb.2
    have ha0 := R.mono hq0
    have ha1 := R.mono hq1
    rw [R.rnd_zero] at ha0
    rw [R.rnd_one] at ha1
    have hm0 := R.mono (show (0 : ℚ) ≤ R.rnd (floatSum R 0 result.confidences
        / (result.allWords.length : ℚ)) * 10 by positivity)
    have hm1 := R.mono (show R.rnd (floatSum R 0 result.confidences
        / (result.allWords.length : ℚ)) * 10 ≤ 10 by linarith)
    rw [R.rnd_zero] at hm0
    rw [R.rnd_ten] at hm1
    refine ⟨_, ?_, roundHalfAway_range hm0 hm1⟩
    rw [azure_score_pos R result hpos, hn]
  · intro input hpos hR ht
    have hex := exact_or_small R (10 * input.wordDetections.length) hR
    have hb := floatSum_bounds R 10
      (input.wordDetections.map (fun t => R.rnd (t.confidence / 10))) 0 0
      (by
        intro m hm
        apply hex
        simpa using hm)
      (by
        intro c hc
        simp only [List.mem_map] at hc
        obtain ⟨t, htm, rfl⟩ := hc
        have h := ht t htm
        have h0 := R.mono (show (0 : ℚ) ≤ t.confidence / 10 by linarith [h.1])
        have h1 := R.mono (show t.confidence / 10 ≤ 10 by linarith [h.2])
        rw [R.rnd_zero] at h0
        rw [R.rnd_ten] at h1
        exact ⟨h0, by simpa using h1⟩)
      le_rfl (by simp)
    simp only [zero_add, List.length_map] at hb
    have hn : R.rnd (input.wordDetections.length : ℚ) = (input.wordDetections.length : ℚ) :=
      hex _ (by omega)
    have hnpos : (0 : ℚ) < (input.wordDetections.length : ℚ) := by exact_mod_cast hpos
    have hq0 : 0 ≤ floatSum R 0 (input.wordDetections.map (fun t => R.rnd (t.confidence / 10)))
        / (input.wordDetections.length : ℚ) := div_nonneg hb.1 (le_of_lt hnpos)
    have hq1 : floatSum R 0 (input.wordDetections.map (fun t => R.rnd (t.confidence / 10)))
        / (input.wordDetections.length : ℚ) ≤ 10 := by
      rw [div_le_iff₀ hnpos]
      simpa using hb.2
    have ha0 := R.mono hq0
    have ha1 := R.mono hq1
    rw [R.rnd_zero] at ha0
    rw [R.rnd_ten] at ha1
    refine ⟨_, ?_, roundHalfAway_range ha0 ha1⟩
    rw [aws_score_pos R input hpos, hn]

/-! ## The text-detection transcript -/

theorem foldl_append_join (l : List String) (acc : String) :
    l.foldl (fun r s => r ++ s) acc = acc ++ String.join l := by
  induction l generalizing acc with
  | nil => simp [String.join]
  | cons a as ih =>
    rw [List.foldl_cons, ih]
    show acc ++ a ++ String.join as = acc ++ List.foldl (fun r s => r ++ s) ("" ++ a) as
    rw [ih ("" ++ a), String.empty_append, String.append_assoc]

theorem join_cons (a : String) (l : List String) : String.join (a :: l) = a ++ String.join l := by
  show List.foldl (fun r s => r ++ s) ("" ++ a) l = a ++ String.join l
  rw [foldl_append_join, String.empty_append]

theorem fullText_loop (ds : List TextDetection) (sb : String) :
    ds.foldl (fun sb text => if text.type = "WORD" then (sb ++ text.detectedText) ++ " " else sb)
        sb
      = sb ++ String.join ((ds.filter (fun t => decide (t.type = "WORD"))).map
          (fun t => t.detectedText ++ " ")) := by
  induction ds generalizing sb with
  | nil => simp [String.join]
  | cons d ds ih =>
    by_cases hd : d.type = "WORD"
    · have hf : (d :: ds).filter (fun t => decide (t.type = "WORD"))
          = d :: ds.filter (fun t => decide (t.type = "WORD")) := by
        simp [List.filter_cons, hd]
      rw [List.foldl_cons, if_pos hd, ih, hf, List.map_cons, join_cons]
      simp only [String.append_assoc]
    · have hf : (d :: ds).filter (fun t => decide (t.type = "WORD"))
          = ds.filter (fun t => decide (t.type = "WORD")) := by
        simp [List.filter_cons, hd]
      rw [List.foldl_cons, if_neg hd, ih, hf]

theorem intercalate_go_space (ws : List String) (acc : String) :
    String.intercalate.go acc " " ws ++ " "
      = acc ++ " " ++ String.join (ws.map (fun w => w ++ " ")) := by
  induction ws generalizing acc with
  | nil => simp [String.intercalate.go, String.join]
  | cons w ws ih =>
    rw [String.intercalate.go, ih, List.map_cons, join_cons]
    simp only [String.append_assoc]

/-- C10 (as amended). `fetchFullTextFromOCRTextAWS` returns the detected texts of the
`WORD` detections, in detection order, each followed by one space, every other detection
omitted: the empty string when there is no `WORD` detection, and otherwise the texts joined
by single spaces followed by one trailing space. -/
theorem fullText_is_words_each_followed_by_space (imageResp : DetectTextOutput) :
    fetchFullTextFromOCRTextAWS imageResp
        = String.join (imageResp.wordDetections.map (fun t => t.detectedText ++ " ")) ∧
    fetchFullTextFromOCRTextAWS imageResp
        = (if imageResp.wordDetections.isEmpty then ""
           else " ".intercalate (imageResp.wordDetections.map (fun t => t.detectedText))
                  ++ " ") := by
  have h1 : fetchFullTextFromOCRTextAWS imageResp
      = String.join (imageResp.wordDetections.map (fun t => t.detectedText ++ " ")) := by
    unfold fetchFullTextFromOCRTextAWS DetectTextOutput.wordDetections
    rw [fullText_loop, String.empty_append]
  refine ⟨h1, ?_⟩
  rw [h1]
  cases hw : imageResp.wordDetections with
  | nil => simp [String.join]
  | cons t ts =>
    simp only [List.isEmpty_cons, Bool.false_eq_true, if_false, List.map_cons]
    rw [String.intercalate, intercalate_go_space, join_cons, List.map_map]
    rfl

/-- C10 (counterexample). For two `WORD` detections `a`, `b` the transcript is `"a b "`, with
a space after the last word, and not the two texts joined by a space. -/
theorem fullText_not_joined_by_spaces :
    fetchFullTextFromOCRTextAWS ⟨[⟨"a", "WORD", 99⟩, ⟨"b", "WORD", 98⟩]⟩ = "a b " ∧
    fetchFullTextFromOCRTextAWS ⟨[⟨"a", "WORD", 99⟩, ⟨"b", "WORD", 98⟩]⟩
      ≠ " ".intercalate ["a", "b"] := by
  constructor <;> decide

/-! ## Instances on the sample inputs -/

/-- The float64 scores of the sample inputs: 9 for the sample layout-aware result, 10 and 7
for the two sample text-detection outputs. -/
theorem sample_scores_binary64 :
    fetchCombinedNormalizedConfidenceScoreForAzure Rounding.binary64 sampleAnalyzeResult
      = F64.fin 9 ∧
    fetchCombinedNormalizedConfidenceScoreForAWS Rounding.binary64 sampleDetections
      = F64.fin 10 ∧
    fetchCombinedNormalizedConfidenceScoreForAWS Rounding.binary64 lowDetections
      = F64.fin 7 := by
  have hc : sampleAnalyzeResult.confidences = [9 / 10, 4 / 5, 19 / 20] := rfl
  have hl : sampleAnalyzeResult.allWords.length = 3 := rfl
  have hA : ∀ w ∈ sampleAnalyzeResult.allWords, 0 ≤ w.confidence ∧ w.confidence ≤ 1 := by
    intro w hw
    simp only [AnalyzeResult.allWords, sampleAnalyzeResult, List.flatMap_cons,
      List.flatMap_nil, List.append_nil, List.nil_append, List.cons_append, List.mem_cons,
      List.mem_singleton, List.not_mem_nil, or_false] at hw
    rcases hw with rfl | rfl | rfl <;> norm_num
  have hw1 : sampleDetections.wordDetections
      = [⟨"INCOME", "WORD", 97⟩, ⟨"TAX", "WORD", 99⟩] := rfl
  have hw2 : lowDetections.wordDetections
      = [⟨"INCOME", "WORD", 42⟩, ⟨"TAX", "WORD", 97⟩] := rfl
  have hB1 : ∀ t ∈ sampleDetections.wordDetections,
      0 ≤ t.confidence ∧ t.confidence ≤ 100 := by
    intro t ht
    rw [hw1] at ht
    simp only [List.mem_cons, List.mem_singleton, List.not_mem_nil, or_false] at ht
    rcases ht with rfl | rfl <;> norm_num
  have hB2 : ∀ t ∈ lowDetections.wordDetections, 0 ≤ t.confidence ∧ t.confidence ≤ 100 := by
    intro t ht
    rw [hw2] at ht
    simp only [List.mem_cons, List.mem_singleton, List.not_mem_nil, or_false] at ht
    rcases ht with rfl | rfl <;> norm_num
  refine ⟨?_, ?_, ?_⟩
  · obtain ⟨h0, h1⟩ := azure_value_accuracy sampleAnalyzeResult (by decide)
      (by rw [hl]; norm_num) hA
    rw [azure_score_pos _ _ (by decide)]
    exact congrArg (fun z : ℤ => F64.fin (z : ℚ))
      (roundHalfAway_of_near (k := 9) h0 h1 (by rw [hc, hl]; norm_num)
        (by rw [hc, hl]; norm_num))
  · obtain ⟨h0, h1⟩ := aws_value_accuracy sampleDetections (by decide)
      (by rw [hw1]; norm_num) hB1
    rw [aws_score_pos _ _ (by decide)]
    exact congrArg (fun z : ℤ => F64.fin (z : ℚ))
      (roundHalfAway_of_near (k := 10) h0 h1 (by rw [hw1]; norm_num) (by rw [hw1]; norm_num))
  · obtain ⟨h0, h1⟩ := aws_value_accuracy lowDetections (by decide)
      (by rw [hw2]; norm_num) hB2
    rw [aws_score_pos _ _ (by decide)]
    exact congrArg (fun z : ℤ => F64.fin (z : ℚ))
      (roundHalfAway_of_near (k := 7) h0 h1 (by rw [hw2]; norm_num) (by rw [hw2]; norm_num))

/-- C2 (witness). Two maps with 3 non-absent values each, float64 arithmetic. With Azure
score 9 and AWS score 7 the Azure map is returned; with Azure score 9 and AWS score 10 the
AWS map is returned. -/
theorem selection_equal_counts_witness :
    nonNullCount sampleMapFull = nonNullCount sampleMapOther ∧
    fetchCombinedNormalizedConfidenceScoreForAzure Rounding.binary64 sampleAnalyzeResult
      = F64.fin 9 ∧
    fetchCombinedNormalizedConfidenceScoreForAWS Rounding.binary64 lowDetections = F64.fin 7 ∧
    fetchCombinedNormalizedConfidenceScoreForAWS Rounding.binary64 sampleDetections
      = F64.fin 10 ∧
    (doDocAnalysis
        (sampleServices samplePanRequest sampleAnalyzeResult lowDetections sampleMapFull
          sampleMapOther)
        Rounding.binary64 "https://example.org/pan.jpg" "PAN" "").2 = Res.ok sampleMapFull ∧
    (doDocAnalysis
        (sampleServices samplePanRequest sampleAnalyzeResult sampleDetections sampleMapFull
          sampleMapOther)
        Rounding.binary64 "https://example.org/pan.jpg" "PAN" "").2 = Res.ok sampleMapOther :=
  ⟨by decide, sample_scores_binary64.1, sample_scores_binary64.2.2, sample_scores_binary64.2.1,
    ((selection_equal_counts
        (sampleServices samplePanRequest sampleAnalyzeResult lowDetections sampleMapFull
          sampleMapOther)
        Rounding.binary64 "https://example.org/pan.jpg" "PAN" ""
        ⟨"succeeded", sampleAnalyzeResult⟩ lowDetections sampleMapFull sampleMapOther
        (sample_reaches _ _ _ _ _ _ _ _) (by decide)).1 9 7 sample_scores_binary64.1
          sample_scores_binary64.2.2).1 (by norm_num),
    ((selection_equal_counts
        (sampleServices samplePanRequest sampleAnalyzeResult sampleDetections sampleMapFull
          sampleMapOther)
        Rounding.binary64 "https://example.org/pan.jpg" "PAN" ""
        ⟨"succeeded", sampleAnalyzeResult⟩ sampleDetections sampleMapFull sampleMapOther
        (sample_reaches _ _ _ _ _ _ _ _) (by decide)).1 9 10 sample_scores_binary64.1
          sample_scores_binary64.2.1).2 (by norm_num)⟩

/-- C8 (witness). Raising the confidence of the word `TAX` from 0.8 to 0.9 in the sample
result, and of the `WORD` detection `INCOME` from 42 to 97 in a sample output. -/
theorem normalizers_monotone_witness :
    ((4 / 5 : ℚ) ≤ 9 / 10 ∧
      F64.le
        (fetchCombinedNormalizedConfidenceScoreForAzure Rounding.exact
          { sampleAnalyzeResult with pages :=
              [] ++ { pageNumber := 1, unit := "pixel", kind := "document",
                      words := [⟨"INCOME", 9 / 10⟩] ++ ⟨"TAX", 4 / 5⟩ :: [] } :: [] })
        (fetchCombinedNormalizedConfidenceScoreForAzure Rounding.exact
          { sampleAnalyzeResult with pages :=
              [] ++ { pageNumber := 1, unit := "pixel", kind := "document",
                      words := [⟨"INCOME", 9 / 10⟩] ++ ⟨"TAX", 9 / 10⟩ :: [] } :: [] })
        = true) ∧
    ("WORD" = "WORD" ∧ (42 : ℚ) ≤ 97 ∧
      F64.le
        (fetchCombinedNormalizedConfidenceScoreForAWS Rounding.exact
          ⟨[⟨"INCOME TAX", "LINE", 99⟩] ++ ⟨"INCOME", "WORD", 42⟩ :: [⟨"TAX", "WORD", 99⟩]⟩)
        (fetchCombinedNormalizedConfidenceScoreForAWS Rounding.exact
          ⟨[⟨"INCOME TAX", "LINE", 99⟩] ++ ⟨"INCOME", "WORD", 97⟩ :: [⟨"TAX", "WORD", 99⟩]⟩)
        = true) :=
  ⟨⟨by norm_num,
      (normalizers_monotone Rounding.exact).1 sampleAnalyzeResult
        { pageNumber := 1, unit := "pixel", kind := "document", words := [] } [] []
        [⟨"INCOME", 9 / 10⟩] [] ⟨"TAX", 4 / 5⟩ (9 / 10) (by norm_num)⟩,
    ⟨rfl, by norm_num,
      (normalizers_monotone Rounding.exact).2 [⟨"INCOME TAX", "LINE", 99⟩]
        [⟨"TAX", "WORD", 99⟩] ⟨"INCOME", "WORD", 42⟩ 97 rfl (by norm_num)⟩⟩

/-- C9 (witness). The sample result and the sample output have confidences in range. -/
theorem score_is_integer_in_range_witness :
    (0 < sampleAnalyzeResult.allWords.length ∧
      (∀ w ∈ sampleAnalyzeResult.allWords, 0 ≤ w.confidence ∧ w.confidence ≤ 1) ∧
      ∃ k : ℤ, fetchCombinedNormalizedConfidenceScoreForAzure Rounding.exact
          sampleAnalyzeResult = F64.fin (k : ℚ) ∧ 0 ≤ k ∧ k ≤ 10) ∧
    (0 < sampleDetections.wordDetections.length ∧
      (∀ t ∈ sampleDetections.wordDetections, 0 ≤ t.confidence ∧ t.confidence ≤ 100) ∧
      ∃ k : ℤ, fetchCombinedNormalizedConfidenceScoreForAWS Rounding.exact
          sampleDetections = F64.fin (k : ℚ) ∧ 0 ≤ k ∧ k ≤ 10) :=
  have hA : ∀ w ∈ sampleAnalyzeResult.allWords, 0 ≤ w.confidence ∧ w.confidence ≤ 1 := by
    intro w hw
    simp only [AnalyzeResult.allWords, sampleAnalyzeResult, List.flatMap_cons,
      List.flatMap_nil, List.append_nil, List.nil_append, List.cons_append, List.mem_cons,
      List.mem_singleton, List.not_mem_nil, or_false] at hw
    rcases hw with rfl | rfl | rfl <;> norm_num
  have hB : ∀ t ∈ sampleDetections.wordDetections, 0 ≤ t.confidence ∧ t.confidence ≤ 100 := by
    intro t ht
    have hw : sampleDetections.wordDetections
        = [⟨"INCOME", "WORD", 97⟩, ⟨"TAX", "WORD", 99⟩] := rfl
    rw [hw] at ht
    simp only [List.mem_cons, List.mem_singleton, List.not_mem_nil, or_false] at ht
    rcases ht with rfl | rfl <;> norm_num
  ⟨⟨by decide, hA,
      (score_is_integer_in_range Rounding.exact).1 sampleAnalyzeResult (by decide)
        (Or.inl rfl) hA⟩,
    ⟨by decide, hB,
      (score_is_integer_in_range Rounding.exact).2 sampleDetections (by decide)
        (Or.inl rfl) hB⟩⟩

/-! ## Failing provider steps -/

/-- C11. In `doDocAnalysis`, when an OCR provider step returns an error the run ends there
with an error and no field map, and no LLM exchange is made: after a failed submission the
only exchange is the submission; after a failed retrieval from the layout-aware provider
the exchanges are the submission and the retrieval (the text-detection provider is not
called); after a failed text-detection call the exchanges are the three provider calls. -/
theorem provider_failure_ends_run_without_llm (sv : Services) (R : Rounding)
    (imageURL docType desiredFields : String) :
    (∀ err : String, sv.submitOCRAnalysis imageURL = Except.error err →
      doDocAnalysis sv R imageURL docType desiredFields
        = ([Call.submitOCRAnalysis imageURL],
            Res.error ("failed to submit ocr analysis: " ++ err))) ∧
    (∀ (analysisReqID err : String),
      sv.submitOCRAnalysis imageURL = Except.ok analysisReqID →
      sv.fetchOCRAnalysisResult analysisReqID = Except.error err →
      doDocAnalysis sv R imageURL docType desiredFields
        = ([Call.submitOCRAnalysis imageURL, Call.fetchOCRAnalysisResult analysisReqID],
            Res.error ("failed to fetch ocr analysis result: " ++ err))) ∧
    (∀ (analysisReqID : String) (result : OCRAnalysisResult) (err : String),
      sv.submitOCRAnalysis imageURL = Except.ok analysisReqID →
      sv.fetchOCRAnalysisResult analysisReqID = Except.ok result →
      sv.fetchOCRAnalysisResultfromAWS imageURL = Except.error err →
      doDocAnalysis sv R imageURL docType desiredFields
        = ([Call.submitOCRAnalysis imageURL, Call.fetchOCRAnalysisResult analysisReqID,
              Call.fetchOCRAnalysisResultfromAWS imageURL],
            Res.error ("failed to fetch ocr analysis result from aws: " ++ err))) := by
  refine ⟨?_, ?_, ?_⟩
  · intro err h1
    unfold doDocAnalysis
    simp only [bind_run, h1, exchange, wrapErr, Run.bind]
  · intro analysisReqID err h1 h2
    unfold doDocAnalysis
    simp only [bind_run, h1, h2, exchange, wrapErr, Run.bind, List.singleton_append]
  · intro analysisReqID result err h1 h2 h3
    unfold doDocAnalysis
    simp only [bind_run, h1, h2, h3, exchange, wrapErr, Run.bind, List.singleton_append,
      List.cons_append, List.nil_append]

/-- C11 (witness). The three failing provider steps on the sample collaborators. -/
theorem provider_failure_ends_run_without_llm_witness :
    (submitFailsServices.submitOCRAnalysis "https://example.org/pan.jpg"
        = Except.error "received unexpected status code in response: 504" ∧
      doDocAnalysis submitFailsServices Rounding.exact "https://example.org/pan.jpg" "PAN" ""
        = ([Call.submitOCRAnalysis "https://example.org/pan.jpg"],
            Res.error ("failed to submit ocr analysis: "
              ++ "received unexpected status code in response: 504"))) ∧
    (fetchFailsServices.submitOCRAnalysis "https://example.org/pan.jpg"
        = Except.ok "request-1" ∧
      fetchFailsServices.fetchOCRAnalysisResult "request-1"
        = Except.error "failed to make request: timeout" ∧
      doDocAnalysis fetchFailsServices Rounding.exact "https://example.org/pan.jpg" "PAN" ""
        = ([Call.submitOCRAnalysis "https://example.org/pan.jpg",
              Call.fetchOCRAnalysisResult "request-1"],
            Res.error ("failed to fetch ocr analysis result: "
              ++ "failed to make request: timeout"))) ∧
    (awsFailsServices.fetchOCRAnalysisResultfromAWS "https://example.org/pan.jpg"
        = Except.error "failed to call AWS rekognition: timeout" ∧
      doDocAnalysis awsFailsServices Rounding.exact "https://example.org/pan.jpg" "PAN" ""
        = ([Call.submitOCRAnalysis "https://example.org/pan.jpg",
              Call.fetchOCRAnalysisResult "request-1",
              Call.fetchOCRAnalysisResultfromAWS "https://example.org/pan.jpg"],
            Res.error ("failed to fetch ocr analysis result from aws: "
              ++ "failed to call AWS rekognition: timeout"))) :=
  ⟨⟨rfl, (provider_failure_ends_run_without_llm submitFailsServices Rounding.exact
        "https://example.org/pan.jpg" "PAN" "").1 _ rfl⟩,
    ⟨rfl, rfl, (provider_failure_ends_run_without_llm fetchFailsServices Rounding.exact
        "https://example.org/pan.jpg" "PAN" "").2.1 _ _ rfl rfl⟩,
    ⟨rfl, (provider_failure_ends_run_without_llm awsFailsServices Rounding.exact
        "https://example.org/pan.jpg" "PAN" "").2.2 "request-1" ⟨"succeeded", sampleAnalyzeResult⟩
        _ rfl rfl rfl⟩⟩

/-! ## Prompt builder -/

/-- Whatever the LLM endpoint answers, `askGPTForPIIAnalysis` makes exactly one exchange,
whose body is the assembled prompt. -/
theorem askGPT_calls (sv : Services) (n : ℕ) (ocrExtractedText docType desiredJSON : String) :
    (askGPTForPIIAnalysis sv n ocrExtractedText docType desiredJSON).1
      = [Call.gptRequest (buildPrompt ocrExtractedText docType desiredJSON)] := by
  unfold askGPTForPIIAnalysis
  simp only
  cases sv.gptExchange n (buildPrompt ocrExtractedText docType desiredJSON) with
  | doError err => rfl
  | readError err => rfl
  | response statusCode respBytes =>
    simp only
    split
    · rfl
    · cases sv.jsonUnmarshalGPTResult respBytes with
      | error err => rfl
      | ok d =>
        simp only
        cases d.choices <;> rfl

theorem escapeNewlines_data (s : String) :
    (escapeNewlines s).data
      = s.data.flatMap (fun c => if c = '\n' then ['\\', 'n'] else [c]) := rfl

theorem escapeNewlines_no_lf (s : String) : '\n' ∉ (escapeNewlines s).data := by
  rw [escapeNewlines_data]
  intro h
  obtain ⟨c, _, hc⟩ := List.mem_flatMap.mp h
  by_cases hlf : c = '\n'
  · rw [if_pos hlf] at hc
    revert hc
    decide
  · rw [if_neg hlf] at hc
    exact hlf (List.mem_singleton.mp hc).symm

theorem escapeNewlines_append (a b : String) :
    escapeNewlines (a ++ b) = escapeNewlines a ++ escapeNewlines b := by
  apply String.ext
  simp [escapeNewlines_data, String.data_append, List.flatMap_append]

theorem escapeNewlines_of_no_lf (s : String) (h : '\n' ∉ s.data) : escapeNewlines s = s := by
  apply String.ext
  rw [escapeNewlines_data]
  generalize s.data = l at h
  induction l with
  | nil => rfl
  | cons c cs ih =>
    have hc : c ≠ '\n' := fun e => h (e ▸ List.mem_cons_self _ _)
    have hcs : '\n' ∉ cs := fun e => h (List.mem_cons_of_mem _ e)
    rw [List.flatMap_cons, if_neg hc, ih hcs]
    rfl

/-- The assembled request body. For every transcript and each of the document types PAN,
AADHAR and UNKNOWN, the body of the one request made by `askGPTForPIIAnalysis` is the system prefix,
the template of the document type, the transcript with every line feed replaced by the two
characters backslash and `n`, then (for UNKNOWN only) the desired-fields prefix and the
desired fields, then the suffix. The contribution of the transcript contains no line feed;
the replacement acts character by character, turns a line feed into backslash `n`, and
leaves a transcript without line feed unchanged. -/
theorem prompt_is_templates_around_escaped_transcript (sv : Services) (n : ℕ)
    (ocrExtractedText desiredJSON : String) :
    (askGPTForPIIAnalysis sv n ocrExtractedText panDoc desiredJSON).1
        = [Call.gptRequest
            (systemPrompt ++ panPrompt ++ escapeNewlines ocrExtractedText ++ endPrompt)] ∧
    (askGPTForPIIAnalysis sv n ocrExtractedText aadharDoc desiredJSON).1
        = [Call.gptRequest
            (systemPrompt ++ aadharPrompt ++ escapeNewlines ocrExtractedText ++ endPrompt)] ∧
    (askGPTForPIIAnalysis sv n ocrExtractedText unknownDoc desiredJSON).1
        = [Call.gptRequest
            (systemPrompt ++ noneTypeDocPrompt ++ escapeNewlines ocrExtractedText
              ++ desiredJsonPrefixPrompt ++ desiredJSON ++ endPrompt)] ∧
    '\n' ∉ (escapeNewlines ocrExtractedText).data ∧
    (∀ a b : String, escapeNewlines (a ++ b) = escapeNewlines a ++ escapeNewlines b) ∧
    escapeNewlines "\n" = "\\n" ∧
    (∀ s : String, '\n' ∉ s.data → escapeNewlines s = s) := by
  refine ⟨?_, ?_, ?_, escapeNewlines_no_lf _, escapeNewlines_append, by decide,
    escapeNewlines_of_no_lf⟩
  · rw [askGPT_calls]
    have h1 : panDoc ≠ aadharDoc := by decide
    simp only [buildPrompt, if_neg h1, if_true]
  · rw [askGPT_calls]
    simp only [buildPrompt, if_true]
  · rw [askGPT_calls]
    have h1 : unknownDoc ≠ aadharDoc := by decide
    have h2 : unknownDoc ≠ panDoc := by decide
    simp only [buildPrompt, if_neg h1, if_neg h2, if_true]

/-- C12 (evaluation at the failing input). The transcript `12" x 8"` has no line feed, so
`askGPTForPIIAnalysis` copies it into the request body unchanged, right after the PAN
template, whose last line has opened a JSON string literal (`"content": "... OCR Text: \"`).
The first quotation mark of the transcript is not escaped: it ends that literal, and what
follows of the transcript is read as request structure. Replacing line feeds alone thus
does not keep a transcript from breaking the request encoding; a transcript without
quotation mark, such as the two lines `INCOME TAX` and `DEPARTMENT`, does not end the
literal. -/
theorem transcript_quote_ends_json_string :
    escapeNewlines "12\" x 8\"" = "12\" x 8\"" ∧
    hasUnescapedQuote (escapeNewlines "12\" x 8\"").data = true ∧
    (askGPTForPIIAnalysis samplePanServices 0 "12\" x 8\"" panDoc "").1
      = [Call.gptRequest (systemPrompt ++ panPrompt ++ "12\" x 8\"" ++ endPrompt)] ∧
    hasUnescapedQuote (escapeNewlines "INCOME TAX\nDEPARTMENT").data = false := by
  refine ⟨by decide, by decide, ?_, by decide⟩
  have h1 : panDoc ≠ aadharDoc := by decide
  have h2 : escapeNewlines "12\" x 8\"" = "12\" x 8\"" := by decide
  rw [askGPT_calls]
  simp only [buildPrompt, if_neg h1, if_true, h2]

/-! ## Counting non-absent values -/

theorem neNilString_iff (v : JVal) : v.neNilString = true ↔ v ≠ JVal.str "nil" := by
  cases v with
  | str s =>
    simp only [JVal.neNilString, bne_iff_ne, ne_eq, JVal.str.injEq]
  | null => simp [JVal.neNilString]
  | bool b => simp [JVal.neNilString]
  | num x => simp [JVal.neNilString]
  | arr xs => simp [JVal.neNilString]
  | obj kvs => simp [JVal.neNilString]

theorem count_loop (kvs : List (String × JVal)) (n : ℕ) :
    kvs.foldl (fun n kv => if kv.2.neNilString then n + 1 else n) n
      = n + kvs.countP (fun kv => kv.2.neNilString) := by
  induction kvs generalizing n with
  | nil => simp
  | cons kv kvs ih =>
    rw [List.foldl_cons, ih, List.countP_cons]
    by_cases h : kv.2.neNilString = true
    · rw [if_pos h, if_pos h]; omega
    · rw [if_neg h, if_neg h]; omega

theorem nonNullCount_some (kvs : List (String × JVal)) :
    nonNullCount (some kvs) = kvs.countP (fun kv => kv.2.neNilString) := by
  unfold nonNullCount
  simp only [count_loop, zero_add]

/-- C13. The count that the selection step of `doDocAnalysis` takes of a decoded field map
is the number of entries whose value is not the string `"nil"` (zero for the nil map). A
value that is not a string, a JSON `null` among them, is therefore counted as present: a map
whose values are all non-strings (all `null`, say) has as count its number of entries, a map
whose values are all the string `"nil"` has count 0, and the selection prefers a non-empty
map of `null`s to a map of `"nil"` strings whatever the scores. -/
theorem count_is_values_not_nil_string :
    (∀ v : JVal, v.neNilString = true ↔ v ≠ JVal.str "nil") ∧
    nonNullCount none = 0 ∧
    (∀ kvs : List (String × JVal),
      nonNullCount (some kvs) = kvs.countP (fun kv => kv.2.neNilString)) ∧
    (∀ kvs : List (String × JVal), (∀ kv ∈ kvs, ∀ s : String, kv.2 ≠ JVal.str s) →
      nonNullCount (some kvs) = kvs.length) ∧
    (∀ kvs : List (String × JVal), (∀ kv ∈ kvs, kv.2 = JVal.null) →
      nonNullCount (some kvs) = kvs.length) ∧
    (∀ kvs : List (String × JVal), (∀ kv ∈ kvs, kv.2 = JVal.str "nil") →
      nonNullCount (some kvs) = 0) ∧
    (∀ (nulls nils : List (String × JVal)) (sA sB : F64),
      (∀ kv ∈ nulls, kv.2 = JVal.null) → (∀ kv ∈ nils, kv.2 = JVal.str "nil") →
      nulls ≠ [] →
      selectResult (some nulls) (some nils) sA sB = some nulls ∧
      selectResult (some nils) (some nulls) sA sB = some nulls) := by
  have hall : ∀ kvs : List (String × JVal), (∀ kv ∈ kvs, ∀ s : String, kv.2 ≠ JVal.str s) →
      nonNullCount (some kvs) = kvs.length := by
    intro kvs h
    rw [nonNullCount_some, List.countP_eq_length]
    intro kv hkv
    exact (neNilString_iff kv.2).mpr (h kv hkv "nil")
  have hnull : ∀ kvs : List (String × JVal), (∀ kv ∈ kvs, kv.2 = JVal.null) →
      nonNullCount (some kvs) = kvs.length := by
    intro kvs h
    apply hall
    intro kv hkv s
    rw [h kv hkv]
    exact fun e => JVal.noConfusion e
  have hnil : ∀ kvs : List (String × JVal), (∀ kv ∈ kvs, kv.2 = JVal.str "nil") →
      nonNullCount (some kvs) = 0 := by
    intro kvs h
    rw [nonNullCount_some, List.countP_eq_zero]
    intro kv hkv
    rw [h kv hkv]
    decide
  refine ⟨neNilString_iff, rfl, nonNullCount_some, hall, hnull, hnil, ?_⟩
  intro nulls nils sA sB h1 h2 hne
  have hlt : nonNullCount (some nils) < nonNullCount (some nulls) := by
    rw [hnull nulls h1, hnil nils h2]
    exact List.length_pos.mpr hne
  exact ⟨selectResult_azure_more _ _ sA sB hlt, selectResult_aws_more _ _ sA sB hlt⟩

/-- C13 (witness). Three `null` values count 3, three `"nil"` strings count 0, and the map
of `null`s is selected. -/
theorem count_is_values_not_nil_string_witness :
    nonNullCount sampleMapNulls = 3 ∧ nonNullCount sampleMapNils = 0 ∧
    selectResult sampleMapNulls sampleMapNils (F64.fin 5) (F64.fin 9) = sampleMapNulls :=
  ⟨by decide, by decide,
    (count_is_values_not_nil_string.2.2.2.2.2.2
      [("fullName", JVal.null), ("dateOfBirth", JVal.null), ("docNumber", JVal.null)]
      [("fullName", JVal.str "nil"), ("dateOfBirth", JVal.str "nil"),
        ("docNumber", JVal.str "nil")]
      (F64.fin 5) (F64.fin 9)
      (by intro kv h; simp only [List.mem_cons, List.mem_singleton, List.not_mem_nil,
            or_false] at h; rcases h with rfl | rfl | rfl <;> rfl)
      (by intro kv h; simp only [List.mem_cons, List.mem_singleton, List.not_mem_nil,
            or_false] at h; rcases h with rfl | rfl | rfl <;> rfl)
      (by simp)).1⟩

/-! ## The answer envelope of the LLM -/

/-- An HTTP 200 answer whose body decodes to an envelope without choices makes
`askGPTForPIIAnalysis` panic, whatever the collaborators are otherwise. -/
theorem askGPT_no_choices (sv : Services) (n : ℕ)
    (ocrExtractedText docType desiredJSON respBytes : String) (d : GPTResult)
    (hresp : sv.gptExchange n (buildPrompt ocrExtractedText docType desiredJSON)
      = HttpOutcome.response 200 respBytes)
    (hdec : sv.jsonUnmarshalGPTResult respBytes = Except.ok d) (hd : d.choices = []) :
    (askGPTForPIIAnalysis sv n ocrExtractedText docType desiredJSON).2
      = Res.panic "runtime error: index out of range [0] with length 0" := by
  unfold askGPTForPIIAnalysis
  simp only [hresp, hdec, hd, ne_eq, not_true_eq_false, if_false]

/-- C14 (evaluation at the failing input). When the LLM endpoint answers HTTP 200 with a
body that decodes to an envelope without choices, `askGPTForPIIAnalysis` neither returns a
content nor an error: `d.Choices[0]` is out of range and the call panics; the panic goes
through `doDocAnalysis` and `HandleRequest`, which return no response. -/
theorem empty_choices_panic (R : Rounding) :
    askGPTForPIIAnalysis emptyChoicesServices 0 "INCOME TAX\nDEPARTMENT" "PAN" ""
      = ([Call.gptRequest (buildPrompt "INCOME TAX\nDEPARTMENT" "PAN" "")],
          Res.panic "runtime error: index out of range [0] with length 0") ∧
    (doDocAnalysis emptyChoicesServices R "https://example.org/pan.jpg" "PAN" "").2
      = Res.panic "runtime error: index out of range [0] with length 0" ∧
    (HandleRequest emptyChoicesServices R
        "\x7b\"docType\":\"pan\",\"frontUrl\":\"https://example.org/pan.jpg\"\x7d").2
      = Res.panic "runtime error: index out of range [0] with length 0" := by
  refine ⟨rfl, rfl, rfl⟩

end NERgpt
